import Mathlib

/-!
# LED matrix firmware (`rp2040_firmware.h`): paged register transport and coordinate mapping

A shallow embedding of the driver for the LED matrix controller.  The I2C peripheral
`Wire1` and the global `currentPage` are made explicit as a `Machine` value that every
function takes and returns.  C expressions of type `int` are evaluated in `Int` (with
`Int.tdiv` and `Int.tmod` for `/` and `%`), and a value stored into a `uint8_t` is reduced
modulo 256 by `toU8`.
-/

namespace Firmware

/-! ## Constants -/

def commandRegisterLock : Nat := 0xFE
def commandLockKey : Nat := 0xC5
def commandRegister : Nat := 0xFD
def PWMRegister : Nat := 0x36
def PWMRegisterDefault : Nat := 0b00000000
def PUDResistorsRegister : Nat := 0x02
def PUDResistorsRegisterDefault : Nat := 0b01100110
def resetRegister : Nat := 0x3F
def resetRegisterKey : Nat := 0xAE
def globalCurrentControlRegister : Nat := 0x01
def globalCurrentDefault : Nat := 0xFF
def configRegister : Nat := 0x00
def configRegisterDefault : Nat := 0b00001001
def functionPage : Nat := 0x04
def LEDWidth : Nat := 9
def LEDHeight : Nat := 34

/-! ## The bus and the page cache -/

/-- One exchange with the controller at `LEDMatrixControllerAddress`: either the bytes
queued by `Wire1.write` between `beginTransmission` and `endTransmission`, or a
`requestFrom` of a number of bytes. -/
inductive Txn where
  | write (bytes : List Nat)
  | request (count : Nat)
deriving DecidableEq, Repr

/-- The state the firmware acts on: the global `currentPage`, the exchanges pushed onto
the wire so far (oldest first), the codes the coming `endTransmission` calls will return,
and the bytes the coming `Wire1.read` calls will deliver. -/
structure Machine where
  currentPage : Nat
  sent : List Txn
  acks : List Nat
  rx : List Nat
deriving DecidableEq, Repr

/-- The machine at startup: `currentPage = 0xFF`, nothing sent, a bus that acknowledges
every transmission. -/
def Machine.boot : Machine := ⟨0xFF, [], [], []⟩

/-- Conversion of a C `int` to `uint8_t`. -/
def toU8 (i : Int) : Nat := (i % 256).toNat

/-- The call `Wire1.endTransmission()` closing a message whose queued bytes are `bytes`:
the message goes onto the wire and the bus reports its `uint8_t` code. -/
def endTransmission (bytes : List Nat) (s : Machine) : Nat × Machine :=
  (s.acks.headD 0 % 256, { s with sent := s.sent ++ [Txn.write bytes], acks := s.acks.tail })

/-- The calls `Wire1.requestFrom(LEDMatrixControllerAddress, 1)` and `Wire1.read()`:
`read` yields -1 when nothing was received, stored into a `uint8_t`. -/
def requestRead (s : Machine) : Nat × Machine :=
  (match s.rx with
    | [] => toU8 (-1)
    | b :: _ => b % 256,
   { s with sent := s.sent ++ [Txn.request 1], rx := s.rx.tail })

/-! ## Functions of the firmware -/

/-- The function `getGamma`: `uint16_t(pwm)*uint16_t(pwm)/255` returned as `uint8_t`. -/
def getGamma (pwm : Nat) : Nat :=
  ((pwm % 65536) * (pwm % 65536) / 255) % 256

/-- The function `unlockCommandRegister`. -/
def unlockCommandRegister (s : Machine) : Nat × Machine :=
  endTransmission [commandRegisterLock, commandLockKey] s

/-- The function `selectPage`. -/
def selectPage (page : Nat) (s : Machine) : Nat × Machine :=
  if page > 4 then (5, s)
  else if s.currentPage = page then (0, s)
  else
    let unlock := unlockCommandRegister s
    let sel := endTransmission [0xFD, page] unlock.2
    if max sel.1 unlock.1 = 0 then
      (max sel.1 unlock.1, { sel.2 with currentPage := page })
    else
      (max sel.1 unlock.1, { sel.2 with currentPage := 0xFF })

/-- The function `readCommand`; the result is `(value, error)`. -/
def readCommand (page reg : Nat) (s : Machine) : (Nat × Nat) × Machine :=
  let pg := selectPage page s
  let adr := endTransmission [reg] pg.2
  let rd := requestRead adr.2
  ((rd.1, max pg.1 adr.1), rd.2)

/-- The function `writeCommand`. -/
def writeCommand (page reg value : Nat) (s : Machine) : Nat × Machine :=
  let pg := selectPage page s
  let wr := endTransmission [reg, value] pg.2
  (max pg.1 wr.1, wr.2)

/-- The test of the second-page loops of `writeAll` and `writeAllScale` for the registers
written as 0 ("Skip unused LEDs"). -/
def unusedLED (i : Nat) : Bool :=
  (i ≥ 60 && i ≤ 89) || (i == 116 || i == 125 || i == 134 || i == 143 || i == 152)

/-- The bytes the second-page loop of `writeAll` queues, `i = 0 .. 0xAA`. -/
def writeAllData1 (value : Nat) : List Nat :=
  (List.range (0xAA + 1)).map fun i => if unusedLED i then 0 else value

/-- The bytes the first-page loop of `writeAll` queues, `i = 0 .. 0xB3`. -/
def writeAllData0 (value : Nat) : List Nat :=
  (List.range (0xB3 + 1)).map fun _ => value

/-- The function `writeAll`. -/
def writeAll (value : Nat) (s : Machine) : Nat × Machine :=
  let pg1 := selectPage 0 s
  let tx1 := endTransmission (0x00 :: writeAllData0 value) pg1.2
  let pg2 := selectPage 1 tx1.2
  let tx2 := endTransmission (0x00 :: writeAllData1 value) pg2.2
  (max pg1.1 (max pg2.1 (max tx1.1 tx2.1)), tx2.2)

/-- The function `writeAllScale`. -/
def writeAllScale (value : Nat) (s : Machine) : Nat × Machine :=
  let pg1 := selectPage 2 s
  let tx1 := endTransmission (0x00 :: writeAllData0 value) pg1.2
  let pg2 := selectPage 3 tx1.2
  let tx2 := endTransmission (0x00 :: writeAllData1 value) pg2.2
  (max pg1.1 (max pg2.1 (max tx1.1 tx2.1)), tx2.2)

/-- A frame `uint8_t inputMatrix[LEDHeight][LEDWidth]`; the entry `inputMatrix[y][x]` is
`inputMatrix y x`. -/
abbrev Frame := Nat → Nat → Nat

/-- The `(x, y)` the first-page loop of `writeMatrix` computes at index `i`. -/
def writeMatrixCell0 (i : Nat) : Nat × Nat :=
  (toU8 (((LEDWidth : Int) - 1) - Int.tdiv i 30), toU8 (Int.tmod i 30))

/-- The `(x, y)` the second-page loop of `writeMatrix` computes at index `i`, or `none`
where it writes 0 and continues ("Skip unused LEDs"). -/
def writeMatrixCell1 (i : Nat) : Option (Nat × Nat) :=
  let j : Int := i
  if i ≤ 59 then
    some (toU8 (2 - Int.tdiv j 30), toU8 (Int.tmod j 30))
  else if i ≤ 89 ∨ i = 116 ∨ i = 125 ∨ i = 134 ∨ i = 143 ∨ i = 152 then
    none
  else if Int.tmod (j - 90) 9 ≤ 3 then
    some (toU8 (((LEDWidth : Int) - 1) - Int.tdiv (j - 90) 9), toU8 (Int.tmod (j - 90) 9 + 30))
  else if i ≤ 107 then
    if Int.tmod (j - 90) 9 = 4 then
      some (0, toU8 (Int.tdiv (j - 90) 9 * 5 + 4))
    else
      some (0, toU8 (Int.tdiv (j - 90) 9 * 5 + (Int.tmod (j - 90) 9 - 5)))
  else
    if Int.tmod (j - 90) 9 = 4 then
      some (0, toU8 ((Int.tdiv (j - 90) 9 + 1) * 4 + 1))
    else
      some (0, toU8 ((Int.tdiv (j - 90) 9 * 4 + 2) + (Int.tmod (j - 90) 9 - 5)))

/-- The byte queued for the entry at `(x, y)`: `getGamma(inputMatrix[y][x])` when
`useGamma`, else `inputMatrix[y][x]`. -/
def frameByte (inputMatrix : Frame) (useGamma : Bool) (c : Nat × Nat) : Nat :=
  if useGamma then getGamma (inputMatrix c.2 c.1) else inputMatrix c.2 c.1

/-- The bytes the first-page loop of `writeMatrix` queues, `i = 0 .. 0xB3`. -/
def writeMatrixData0 (inputMatrix : Frame) (useGamma : Bool) : List Nat :=
  (List.range (0xB3 + 1)).map fun i => frameByte inputMatrix useGamma (writeMatrixCell0 i)

/-- The bytes the second-page loop of `writeMatrix` queues, `i = 0 .. 0xA0`. -/
def writeMatrixData1 (inputMatrix : Frame) (useGamma : Bool) : List Nat :=
  (List.range (0xA0 + 1)).map fun i =>
    match writeMatrixCell1 i with
    | none => 0
    | some c => frameByte inputMatrix useGamma c

/-- The function `writeMatrix`. -/
def writeMatrix (inputMatrix : Frame) (useGamma : Bool) (s : Machine) : Nat × Machine :=
  let pg1 := selectPage 0 s
  let tx1 := endTransmission (0x00 :: writeMatrixData0 inputMatrix useGamma) pg1.2
  let pg2 := selectPage 1 tx1.2
  let tx2 := endTransmission (0x00 :: writeMatrixData1 inputMatrix useGamma) pg2.2
  (max pg1.1 (max pg2.1 (max tx1.1 tx2.1)), tx2.2)

/-- The function `writeMatrixScale`; its two loops are those of `writeMatrix`. -/
def writeMatrixScale (inputMatrix : Frame) (useGamma : Bool) (s : Machine) : Nat × Machine :=
  let pg1 := selectPage 2 s
  let tx1 := endTransmission (0x00 :: writeMatrixData0 inputMatrix useGamma) pg1.2
  let pg2 := selectPage 3 tx1.2
  let tx2 := endTransmission (0x00 :: writeMatrixData1 inputMatrix useGamma) pg2.2
  (max pg1.1 (max pg2.1 (max tx1.1 tx2.1)), tx2.2)

def setPWMFrequencyRegister (value : Nat) (s : Machine) : Nat × Machine :=
  writeCommand functionPage PWMRegister value s

def setPullResistorsRegister (value : Nat) (s : Machine) : Nat × Machine :=
  writeCommand functionPage PUDResistorsRegister value s

def setResetRegister (s : Machine) : Nat × Machine :=
  writeCommand functionPage resetRegister resetRegisterKey s

def setGlobalCurrentControlRegister (value : Nat) (s : Machine) : Nat × Machine :=
  writeCommand functionPage globalCurrentControlRegister value s

def setConfigurationRegister (value : Nat) (s : Machine) : Nat × Machine :=
  writeCommand functionPage configRegister value s

/-- The function `setFunctionRegistersDefault`; the four statuses are discarded. -/
def setFunctionRegistersDefault (s : Machine) : Machine :=
  let s1 := (setConfigurationRegister configRegisterDefault s).2
  let s2 := (setGlobalCurrentControlRegister globalCurrentDefault s1).2
  let s3 := (setPullResistorsRegister PUDResistorsRegisterDefault s2).2
  (setPWMFrequencyRegister PWMRegisterDefault s3).2

/-- The function `matrixReset`. -/
def matrixReset (s : Machine) : Machine :=
  setFunctionRegistersDefault (setResetRegister s).2

/-- The branches of `setPixel` up to its call of `writeCommand`: the early return code, or
the `(page, LEDNumber)` the call is made with.  The parameters are `uint8_t`, so the tests
`x < 0`, `y < 0` and `0 <= y` of the source are constant and left out; `LEDNumber` is a
`uint8_t` assigned from an `int` expression. -/
def setPixelRegister (x y : Nat) : Except Nat (Nat × Nat) :=
  let X : Int := x
  let Y : Int := y
  if x > LEDWidth ∨ y > LEDHeight then .error 1
  else if x ≥ 3 ∧ y ≤ 29 then .ok (0, toU8 (30 * (8 - X) + Y))
  else if 1 ≤ x ∧ x ≤ 2 ∧ y ≤ 29 then .ok (1, toU8 (30 * (2 - X) + Y))
  else if 1 ≤ x ∧ 30 ≤ y then .ok (1, toU8 (9 * (8 - X) + (Y - 30) + 90))
  else if x = 0 then
    if y ≤ 9 then .ok (1, toU8 (Int.tmod (Y + 1) 5 + 9 * Int.tdiv Y 5 + 94))
    else .ok (1, toU8 (Int.tmod (Y - 1) 4 + 9 * Int.tdiv (Y - 2) 4 + 94))
  else .error 2

/-- The function `setPixel`; the status of `writeCommand` is discarded. -/
def setPixel (x y pwm : Nat) (s : Machine) : Nat × Machine :=
  match setPixelRegister x y with
  | .error e => (e, s)
  | .ok (page, LEDNumber) => (0, (writeCommand page LEDNumber pwm s).2)

/-- The branches of `setPixelScale` up to its call of `writeCommand`. -/
def setPixelScaleRegister (x y : Nat) : Except Nat (Nat × Nat) :=
  let X : Int := x
  let Y : Int := y
  if x > LEDWidth ∨ y > LEDHeight then .error 1
  else if x ≥ 3 ∧ y ≤ 29 then .ok (2, toU8 (30 * (8 - X) + Y))
  else if 1 ≤ x ∧ x ≤ 2 ∧ y ≤ 29 then .ok (3, toU8 (30 * (2 - X) + Y))
  else if 1 ≤ x ∧ 30 ≤ y then .ok (3, toU8 (9 * (8 - X) + (Y - 30) + 90))
  else if x = 0 then
    if y ≤ 9 then .ok (3, toU8 (Int.tmod (Y + 1) 5 + 9 * Int.tdiv Y 5 + 94))
    else .ok (3, toU8 (Int.tmod (Y - 1) 4 + 9 * Int.tdiv (Y - 2) 4 + 94))
  else .error 2

/-- The function `setPixelScale`; the status of `writeCommand` is discarded. -/
def setPixelScale (x y scale : Nat) (s : Machine) : Nat × Machine :=
  match setPixelScaleRegister x y with
  | .error e => (e, s)
  | .ok (page, LEDNumber) => (0, (writeCommand page LEDNumber scale s).2)

/-! ## Definitions used to state the properties -/

deriving instance DecidableEq for Except

/-- The inverse lookup of the frame writer as one function: the `(x, y)` that `writeMatrix`
reads for the byte it streams to register `a.2` of page `a.1` (first page: indices up to
`0xB3`; second page: indices up to `0xA0`), `none` where it streams a constant 0 or
nothing at all. -/
def frameCell (a : Nat × Nat) : Option (Nat × Nat) :=
  if a.1 = 0 then (if a.2 ≤ 0xB3 then some (writeMatrixCell0 a.2) else none)
  else if a.1 = 1 then (if a.2 ≤ 0xA0 then writeMatrixCell1 a.2 else none)
  else none

/-- The gap set in the words of the specification: register offsets 60 to 89 inclusive and
the five offsets 116, 125, 134, 143, 152. -/
def gapSet (r : Nat) : Prop :=
  (60 ≤ r ∧ r ≤ 89) ∨ r = 116 ∨ r = 125 ∨ r = 134 ∨ r = 143 ∨ r = 152

instance (r : Nat) : Decidable (gapSet r) := by
  unfold gapSet
  infer_instance

/-- The two transactions of a page selection that misses the cache. -/
def selectTxns (page : Nat) : List Txn :=
  [Txn.write [0xFE, 0xC5], Txn.write [0xFD, page]]

/-- The common body of `writeAll`, `writeAllScale`, `writeMatrix` and `writeMatrixScale`:
select page `p`, stream `d0` from register 0, select page `q`, stream `d1` from register 0,
return the largest of the four statuses. -/
def twoPageWrite (p q : Nat) (d0 d1 : List Nat) (s : Machine) : Nat × Machine :=
  let pg1 := selectPage p s
  let tx1 := endTransmission (0x00 :: d0) pg1.2
  let pg2 := selectPage q tx1.2
  let tx2 := endTransmission (0x00 :: d1) pg2.2
  (max pg1.1 (max pg2.1 (max tx1.1 tx2.1)), tx2.2)

/-! ## Calls of the firmware and the record of the last page selection -/

/-- The primitive steps the functions are made of: a call of `selectPage`, one message
closed by `endTransmission`, one `requestFrom` with its `read`. -/
inductive Op where
  | select (page : Nat)
  | transmit (bytes : List Nat)
  | request

/-- The state after a primitive step. -/
def Op.run : Op → Machine → Machine
  | .select page, s => (selectPage page s).2
  | .transmit bytes, s => (endTransmission bytes s).2
  | .request, s => (requestRead s).2

/-- A call of one of the functions of the file that act on the bus or on `currentPage`,
with its arguments.  (`getGamma` is pure, `wireInit` sends nothing and does not touch
`currentPage`, `bootloader` leaves the program.) -/
inductive Call where
  | unlockCommandRegister
  | selectPage (page : Nat)
  | readCommand (page reg : Nat)
  | writeCommand (page reg value : Nat)
  | writeAll (value : Nat)
  | writeAllScale (value : Nat)
  | writeMatrix (inputMatrix : Frame) (useGamma : Bool)
  | writeMatrixScale (inputMatrix : Frame) (useGamma : Bool)
  | setPWMFrequencyRegister (value : Nat)
  | setPullResistorsRegister (value : Nat)
  | setResetRegister
  | setGlobalCurrentControlRegister (value : Nat)
  | setConfigurationRegister (value : Nat)
  | setFunctionRegistersDefault
  | matrixReset
  | setPixel (x y pwm : Nat)
  | setPixelScale (x y scale : Nat)

/-- The state the called function leaves. -/
def Call.run : Call → Machine → Machine
  | .unlockCommandRegister, s => (Firmware.unlockCommandRegister s).2
  | .selectPage page, s => (Firmware.selectPage page s).2
  | .readCommand page reg, s => (Firmware.readCommand page reg s).2
  | .writeCommand page reg value, s => (Firmware.writeCommand page reg value s).2
  | .writeAll value, s => (Firmware.writeAll value s).2
  | .writeAllScale value, s => (Firmware.writeAllScale value s).2
  | .writeMatrix inputMatrix useGamma, s => (Firmware.writeMatrix inputMatrix useGamma s).2
  | .writeMatrixScale inputMatrix useGamma, s =>
      (Firmware.writeMatrixScale inputMatrix useGamma s).2
  | .setPWMFrequencyRegister value, s => (Firmware.setPWMFrequencyRegister value s).2
  | .setPullResistorsRegister value, s => (Firmware.setPullResistorsRegister value s).2
  | .setResetRegister, s => (Firmware.setResetRegister s).2
  | .setGlobalCurrentControlRegister value, s =>
      (Firmware.setGlobalCurrentControlRegister value s).2
  | .setConfigurationRegister value, s => (Firmware.setConfigurationRegister value s).2
  | .setFunctionRegistersDefault, s => Firmware.setFunctionRegistersDefault s
  | .matrixReset, s => Firmware.matrixReset s
  | .setPixel x y pwm, s => (Firmware.setPixel x y pwm s).2
  | .setPixelScale x y scale, s => (Firmware.setPixelScale x y scale s).2

/-- The primitive steps a call performs, in order. -/
def Call.ops : Call → List Op
  | .unlockCommandRegister => [.transmit [commandRegisterLock, commandLockKey]]
  | .selectPage page => [.select page]
  | .readCommand page reg => [.select page, .transmit [reg], .request]
  | .writeCommand page reg value => [.select page, .transmit [reg, value]]
  | .writeAll value =>
      [.select 0, .transmit (0x00 :: writeAllData0 value),
       .select 1, .transmit (0x00 :: writeAllData1 value)]
  | .writeAllScale value =>
      [.select 2, .transmit (0x00 :: writeAllData0 value),
       .select 3, .transmit (0x00 :: writeAllData1 value)]
  | .writeMatrix inputMatrix useGamma =>
      [.select 0, .transmit (0x00 :: writeMatrixData0 inputMatrix useGamma),
       .select 1, .transmit (0x00 :: writeMatrixData1 inputMatrix useGamma)]
  | .writeMatrixScale inputMatrix useGamma =>
      [.select 2, .transmit (0x00 :: writeMatrixData0 inputMatrix useGamma),
       .select 3, .transmit (0x00 :: writeMatrixData1 inputMatrix useGamma)]
  | .setPWMFrequencyRegister value => [.select functionPage, .transmit [PWMRegister, value]]
  | .setPullResistorsRegister value =>
      [.select functionPage, .transmit [PUDResistorsRegister, value]]
  | .setResetRegister => [.select functionPage, .transmit [resetRegister, resetRegisterKey]]
  | .setGlobalCurrentControlRegister value =>
      [.select functionPage, .transmit [globalCurrentControlRegister, value]]
  | .setConfigurationRegister value => [.select functionPage, .transmit [configRegister, value]]
  | .setFunctionRegistersDefault =>
      [.select functionPage, .transmit [configRegister, configRegisterDefault],
       .select functionPage, .transmit [globalCurrentControlRegister, globalCurrentDefault],
       .select functionPage, .transmit [PUDResistorsRegister, PUDResistorsRegisterDefault],
       .select functionPage, .transmit [PWMRegister, PWMRegisterDefault]]
  | .matrixReset =>
      [.select functionPage, .transmit [resetRegister, resetRegisterKey],
       .select functionPage, .transmit [configRegister, configRegisterDefault],
       .select functionPage, .transmit [globalCurrentControlRegister, globalCurrentDefault],
       .select functionPage, .transmit [PUDResistorsRegister, PUDResistorsRegisterDefault],
       .select functionPage, .transmit [PWMRegister, PWMRegisterDefault]]
  | .setPixel x y pwm =>
      match setPixelRegister x y with
      | .error _ => []
      | .ok (page, LEDNumber) => [.select page, .transmit [LEDNumber, pwm]]
  | .setPixelScale x y scale =>
      match setPixelScaleRegister x y with
      | .error _ => []
      | .ok (page, LEDNumber) => [.select page, .transmit [LEDNumber, scale]]

/-- What is remembered of the most recent page-select message issued by `selectPage`: its
position in the wire log, the page it wrote to register `0xFD`, the status of the unlock
before it (`unlockErr`) and its own status (`error`). -/
structure SelectRecord where
  index : Nat
  page : Nat
  unlockErr : Nat
  error : Nat
deriving DecidableEq, Repr

/-- A machine together with the record of the last page-select message, `none` while
`selectPage` has issued none. -/
abbrev Tracked := Machine × Option SelectRecord

/-- A primitive step on a tracked machine: the record changes exactly when `selectPage`
gets past its two early returns and issues the unlock and the page-select messages. -/
def Op.track : Op → Tracked → Tracked
  | .select page, (s, g) =>
      ((selectPage page s).2,
       if page > 4 ∨ s.currentPage = page then g
       else some
        { index := s.sent.length + 1
          page := page
          unlockErr := (unlockCommandRegister s).1
          error := (endTransmission [0xFD, page] (unlockCommandRegister s).2).1 })
  | .transmit bytes, (s, g) => ((endTransmission bytes s).2, g)
  | .request, (s, g) => ((requestRead s).2, g)

/-- A call on a tracked machine: its primitive steps in order. -/
def Call.track (c : Call) (t : Tracked) : Tracked :=
  c.ops.foldl (fun t o => o.track t) t

/-- The tracked states reachable from startup: the program starts with `currentPage = 0xFF`
and an empty wire; any function may be called next; and the statuses and bytes the bus
will deliver may be anything at any time. -/
inductive Reachable : Tracked → Prop where
  | boot (acks rx : List Nat) : Reachable (⟨0xFF, [], acks, rx⟩, none)
  | call (c : Call) {t : Tracked} : Reachable t → Reachable (c.track t)
  | bus (acks rx : List Nat) {t : Tracked} :
      Reachable t → Reachable ({ t.1 with acks := acks, rx := rx }, t.2)

/-- Coherence of the cache with the record: a record points at an unlock message followed
by the page-select message for its page in the wire log; and the cached page is the
sentinel `0xFF`, or a page up to 4 that the recorded page-select wrote, both the unlock
and the page select having completed with status 0. -/
def Coherent (t : Tracked) : Prop :=
  (∀ r, t.2 = some r →
    1 ≤ r.index ∧ t.1.sent[r.index]? = some (Txn.write [0xFD, r.page]) ∧
    t.1.sent[r.index - 1]? = some (Txn.write [0xFE, 0xC5])) ∧
  (t.1.currentPage = 0xFF ∨
    (t.1.currentPage ≤ 4 ∧
      ∃ r, t.2 = some r ∧ r.page = t.1.currentPage ∧ r.unlockErr = 0 ∧ r.error = 0))

/-! ## Tables checked by evaluation -/

set_option maxRecDepth 100000

theorem frameCell_setPixelRegister :
    ∀ x < 9, ∀ y < 34, (setPixelRegister x y).toOption.bind frameCell = some (x, y) := by
  decide

theorem setPixelRegister_cell0 :
    ∀ i < 180, setPixelRegister (writeMatrixCell0 i).1 (writeMatrixCell0 i).2 = .ok (0, i)
      ∧ (writeMatrixCell0 i).1 ≤ 8 ∧ (writeMatrixCell0 i).2 ≤ 33 := by
  decide

theorem setPixelRegister_cell1 :
    ∀ i < 161, ∀ c ∈ writeMatrixCell1 i,
      setPixelRegister c.1 c.2 = .ok (1, i) ∧ c.1 ≤ 8 ∧ c.2 ≤ 33 := by
  decide

theorem cell1_none_iff_unused :
    ∀ i < 161, (writeMatrixCell1 i = none ↔ unusedLED i = true) := by
  decide

theorem setPixelRegister_never_last :
    ∀ x < 9, ∀ y < 34, setPixelRegister x y ≠ .ok (1, 0xAA) := by
  decide

/-! ## Lemmas on the transport -/

theorem endTransmission_sent (bytes : List Nat) (s : Machine) :
    (endTransmission bytes s).2.sent = s.sent ++ [Txn.write bytes] := rfl

theorem endTransmission_currentPage (bytes : List Nat) (s : Machine) :
    (endTransmission bytes s).2.currentPage = s.currentPage := rfl

theorem writeCommand_sent (page reg value : Nat) (s : Machine) :
    (writeCommand page reg value s).2.sent
      = (selectPage page s).2.sent ++ [Txn.write [reg, value]] := rfl

theorem setPixel_of_register {x y page reg : Nat} (h : setPixelRegister x y = .ok (page, reg))
    (v : Nat) (s : Machine) : setPixel x y v s = (0, (writeCommand page reg v s).2) := by
  simp [setPixel, h]

theorem setPixelScale_of_register {x y page reg : Nat}
    (h : setPixelScaleRegister x y = .ok (page, reg)) (v : Nat) (s : Machine) :
    setPixelScale x y v s = (0, (writeCommand page reg v s).2) := by
  simp [setPixelScale, h]

/-- The two setters compute the same register; the page of `setPixelScale` is that of
`setPixel` plus 2. -/
theorem setPixelScaleRegister_eq (x y : Nat) :
    setPixelScaleRegister x y = (setPixelRegister x y).map fun a => (a.1 + 2, a.2) := by
  unfold setPixelScaleRegister setPixelRegister
  split_ifs <;> rfl

/-- On the grid `setPixel` reaches `writeCommand`, with an address the frame writer reads
back as the same pixel. -/
theorem setPixelRegister_grid {x y : Nat} (hx : x ≤ 8) (hy : y ≤ 33) :
    ∃ a, setPixelRegister x y = .ok a ∧ frameCell a = some (x, y) := by
  have h := frameCell_setPixelRegister x (by omega) y (by omega)
  cases hr : setPixelRegister x y with
  | error e => rw [hr] at h; simp [Except.toOption] at h
  | ok a => rw [hr] at h; exact ⟨a, rfl, by simpa [Except.toOption] using h⟩

theorem gapSet_iff_unusedLED (r : Nat) : gapSet r ↔ unusedLED r = true := by
  simp [gapSet, unusedLED, or_assoc]

theorem gapSet_le {r : Nat} (h : gapSet r) : r ≤ 0xA0 := by
  unfold gapSet at h
  omega

theorem getElem?_map_range {α : Type} (f : Nat → α) {n i : Nat} (h : i < n) :
    ((List.range n).map f)[i]? = some (f i) := by
  simp [List.getElem?_map, List.getElem?_range h]

theorem selectPage_hit {p : Nat} {s : Machine} (hp : p ≤ 4) (hc : s.currentPage = p) :
    selectPage p s = (0, s) := by
  simp [selectPage, hc, Nat.not_lt.mpr hp]

theorem selectPage_miss {p : Nat} {s : Machine} (hp : p ≤ 4) (hc : s.currentPage ≠ p) :
    selectPage p s
      = (max (s.acks.tail.headD 0 % 256) (s.acks.headD 0 % 256),
         { currentPage :=
             if max (s.acks.tail.headD 0 % 256) (s.acks.headD 0 % 256) = 0 then p else 0xFF
           sent := s.sent ++ selectTxns p
           acks := s.acks.tail.tail
           rx := s.rx }) := by
  simp only [selectPage, Nat.not_lt.mpr hp, if_neg hc, if_false, unlockCommandRegister,
    endTransmission, selectTxns, commandRegisterLock, commandLockKey, List.append_assoc,
    List.singleton_append]
  split_ifs <;> rfl

/-- After a selection of a valid page the cache holds that page or the sentinel. -/
theorem selectPage_currentPage {p : Nat} (s : Machine) (hp : p ≤ 4) :
    (selectPage p s).2.currentPage = p ∨ (selectPage p s).2.currentPage = 0xFF := by
  by_cases hc : s.currentPage = p
  · rw [selectPage_hit hp hc]; exact Or.inl hc
  · rw [selectPage_miss hp hc]
    dsimp only
    split_ifs
    · exact Or.inl rfl
    · exact Or.inr rfl

theorem selectPage_sent {p : Nat} (s : Machine) (hp : p ≤ 4) :
    (selectPage p s).2.sent = s.sent ++ (if s.currentPage = p then [] else selectTxns p) := by
  by_cases hc : s.currentPage = p
  · rw [selectPage_hit hp hc, if_pos hc, List.append_nil]
  · rw [selectPage_miss hp hc, if_neg hc]

/-- What one call of `writeMatrix` puts on the wire. -/
theorem writeMatrix_sent (inputMatrix : Frame) (useGamma : Bool) (s : Machine) :
    (writeMatrix inputMatrix useGamma s).2.sent
      = s.sent ++ (if s.currentPage = 0 then [] else selectTxns 0)
          ++ [Txn.write (0 :: writeMatrixData0 inputMatrix useGamma)]
          ++ selectTxns 1
          ++ [Txn.write (0 :: writeMatrixData1 inputMatrix useGamma)] := by
  have h1 : (endTransmission (0 :: writeMatrixData0 inputMatrix useGamma)
      (selectPage 0 s).2).2.currentPage ≠ 1 := by
    rw [endTransmission_currentPage]
    rcases selectPage_currentPage s (Nat.zero_le 4) with h | h <;> rw [h] <;> decide
  simp only [writeMatrix, endTransmission_sent]
  rw [selectPage_sent _ (by decide : 1 ≤ 4), if_neg h1, endTransmission_sent,
    selectPage_sent _ (Nat.zero_le 4)]

theorem setPixelScaleRegister_ok_iff (x y p r : Nat) :
    setPixelScaleRegister x y = .ok (p + 2, r) ↔ setPixelRegister x y = .ok (p, r) := by
  rw [setPixelScaleRegister_eq]
  cases h : setPixelRegister x y with
  | error e => simp [Except.map]
  | ok a =>
    obtain ⟨a1, a2⟩ := a
    simp [Except.map]

/-- A register of the first page up to `0xB3`, or of the second page up to `0xA0` outside
the gap set, is the address of exactly one pixel of the grid. -/
theorem setPixelRegister_unique_pixel (p r : Nat)
    (h : (p = 0 ∧ r ≤ 0xB3) ∨ (p = 1 ∧ r ≤ 0xA0 ∧ ¬ gapSet r)) :
    ∃! c : Nat × Nat, c.1 ≤ 8 ∧ c.2 ≤ 33 ∧ setPixelRegister c.1 c.2 = .ok (p, r) := by
  have hex : ∃ c : Nat × Nat, c.1 ≤ 8 ∧ c.2 ≤ 33 ∧ setPixelRegister c.1 c.2 = .ok (p, r) := by
    rcases h with ⟨rfl, hr⟩ | ⟨rfl, hr, hg⟩
    · obtain ⟨h1, h2, h3⟩ := setPixelRegister_cell0 r (by omega)
      exact ⟨writeMatrixCell0 r, h2, h3, h1⟩
    · have hsome : writeMatrixCell1 r ≠ none := fun hn =>
        hg ((gapSet_iff_unusedLED r).2 ((cell1_none_iff_unused r (by omega)).1 hn))
      obtain ⟨c, hc⟩ := Option.ne_none_iff_exists'.1 hsome
      obtain ⟨h1, h2, h3⟩ := setPixelRegister_cell1 r (by omega) c hc
      exact ⟨c, h2, h3, h1⟩
  obtain ⟨c, hc1, hc2, hc3⟩ := hex
  refine ⟨c, ⟨hc1, hc2, hc3⟩, ?_⟩
  rintro ⟨x, y⟩ ⟨hx, hy, hxy⟩
  obtain ⟨a, ha, hcell⟩ := setPixelRegister_grid hx hy
  obtain ⟨a', ha', hcell'⟩ := setPixelRegister_grid hc1 hc2
  rw [hc3] at ha'
  rw [show setPixelRegister x y = .ok (p, r) from hxy] at ha
  cases ha
  cases ha'
  rw [hcell] at hcell'
  exact Option.some.inj hcell'

/-- No pixel of the grid is mapped to a gap register of the second page, nor to a register
of the second page above `0xA0`. -/
theorem setPixelRegister_avoids {x y r : Nat} (hx : x ≤ 8) (hy : y ≤ 33)
    (h : gapSet r ∨ 0xA0 < r) : setPixelRegister x y ≠ .ok (1, r) := by
  intro hxy
  obtain ⟨a, ha, hcell⟩ := setPixelRegister_grid hx hy
  rw [hxy] at ha
  cases ha
  replace hcell : (if r ≤ 0xA0 then writeMatrixCell1 r else none) = some (x, y) := by
    simpa [frameCell] using hcell
  rcases h with hg | hr
  · have hle := gapSet_le hg
    rw [if_pos hle,
      (cell1_none_iff_unused r (by omega)).2 ((gapSet_iff_unusedLED r).1 hg)] at hcell
    cases hcell
  · rw [if_neg (by omega)] at hcell
    cases hcell

/-! ## The coordinate mapping of `setPixel` -/

/-- C1: in regions A, C, D1 and D2 of the grid `setPixel x y v` returns 0 and its effect is
that of the single call `writeCommand page reg v`, where `(page, reg)` is the entry of the
region table (pages 0 and 1), the register being the untruncated value of the formula; that
call puts the one message `[reg, v]` on the wire after its page selection. -/
theorem setPixel_region_table (x y v : Nat) (s : Machine) :
    (3 ≤ x ∧ x ≤ 8 ∧ y ≤ 29 →
      setPixel x y v s = (0, (writeCommand 0 (30 * (8 - x) + y) v s).2)) ∧
    (1 ≤ x ∧ x ≤ 8 ∧ 30 ≤ y ∧ y ≤ 33 →
      setPixel x y v s = (0, (writeCommand 1 (9 * (8 - x) + (y - 30) + 90) v s).2)) ∧
    (x = 0 ∧ y ≤ 9 →
      setPixel x y v s = (0, (writeCommand 1 ((y + 1) % 5 + 9 * (y / 5) + 94) v s).2)) ∧
    (x = 0 ∧ 10 ≤ y ∧ y ≤ 33 →
      setPixel x y v s = (0, (writeCommand 1 ((y - 1) % 4 + 9 * ((y - 2) / 4) + 94) v s).2)) ∧
    (∀ page reg, (writeCommand page reg v s).2.sent
      = (selectPage page s).2.sent ++ [Txn.write [reg, v]]) := by
  refine ⟨?_, ?_, ?_, ?_, fun _ _ => rfl⟩
  · rintro ⟨h1, h2, h3⟩
    apply setPixel_of_register
    simp only [setPixelRegister, LEDWidth, LEDHeight]
    rw [if_neg (by omega), if_pos (by omega)]
    simp only [toU8]
    congr 2
    omega
  · rintro ⟨h1, h2, h3, h4⟩
    apply setPixel_of_register
    simp only [setPixelRegister, LEDWidth, LEDHeight]
    rw [if_neg (by omega), if_neg (by omega), if_neg (by omega), if_pos (by omega)]
    simp only [toU8]
    congr 2
    omega
  · rintro ⟨rfl, h⟩
    apply setPixel_of_register
    interval_cases y <;> rfl
  · rintro ⟨rfl, h1, h2⟩
    apply setPixel_of_register
    interval_cases y <;> rfl

/-- C1, at the two scenarios of the specification: `setPixel(3, 0, 128)` writes register
150 of page 0 and `setPixel(0, 5, 200)` writes register 104 of page 1. -/
theorem setPixel_region_table_witness :
    (3 ≤ 3 ∧ 3 ≤ 8 ∧ 0 ≤ 29) ∧ (0 = 0 ∧ 5 ≤ 9) ∧
    setPixel 3 0 128 Machine.boot = (0, (writeCommand 0 150 128 Machine.boot).2) ∧
    setPixel 0 5 200 Machine.boot = (0, (writeCommand 1 104 200 Machine.boot).2) ∧
    (writeCommand 0 150 128 Machine.boot).2.sent
      = [Txn.write [0xFE, 0xC5], Txn.write [0xFD, 0], Txn.write [150, 128]] :=
  ⟨by decide, by decide,
    (setPixel_region_table 3 0 128 Machine.boot).1 (by decide),
    (setPixel_region_table 0 5 200 Machine.boot).2.2.1 (by decide),
    (setPixel_region_table 3 0 128 Machine.boot).2.2.2.2 0 150⟩

/-- C2 as stated fails at `x = 1`, `y = 0`: the register is 30, but `setPixel` addresses
page 1 and `setPixelScale` page 3, not pages 0 and 2. -/
theorem setPixel_regionB_base_page_counterexample :
    setPixelRegister 1 0 = .ok (1, 30) ∧ setPixelScaleRegister 1 0 = .ok (3, 30) ∧
    (setPixel 1 0 7 Machine.boot).2.sent
      = [Txn.write [0xFE, 0xC5], Txn.write [0xFD, 1], Txn.write [30, 7]] ∧
    (setPixelScale 1 0 7 Machine.boot).2.sent
      = [Txn.write [0xFE, 0xC5], Txn.write [0xFD, 3], Txn.write [30, 7]] ∧
    setPixel 1 0 7 Machine.boot ≠ (0, (writeCommand 0 30 7 Machine.boot).2) ∧
    setPixelScale 1 0 7 Machine.boot ≠ (0, (writeCommand 2 30 7 Machine.boot).2) := by
  decide

/-- C2, amended: for `x` in 1..2 and `y` in 0..29, `setPixel x y v` is the single call
`writeCommand 1 (30*(2-x)+y) v` (second page of the brightness pair) and
`setPixelScale x y v` is `writeCommand 3 (30*(2-x)+y) v` (second page of the scale pair). -/
theorem setPixel_regionB (x y v : Nat) (s : Machine) (hx : 1 ≤ x ∧ x ≤ 2) (hy : y ≤ 29) :
    setPixel x y v s = (0, (writeCommand 1 (30 * (2 - x) + y) v s).2) ∧
    setPixelScale x y v s = (0, (writeCommand 3 (30 * (2 - x) + y) v s).2) := by
  have key : setPixelRegister x y = .ok (1, 30 * (2 - x) + y) := by
    simp only [setPixelRegister, LEDWidth, LEDHeight]
    rw [if_neg (by omega), if_neg (by omega), if_pos (by omega)]
    simp only [toU8]
    congr 2
    omega
  refine ⟨setPixel_of_register key v s, setPixelScale_of_register ?_ v s⟩
  rw [setPixelScaleRegister_eq, key]
  rfl

/-- C2 as amended, at `x = 2`, `y = 29`: register 29 of page 1, and of page 3 for the scale. -/
theorem setPixel_regionB_witness :
    (1 ≤ 2 ∧ 2 ≤ 2) ∧ 29 ≤ 29 ∧
    setPixel 2 29 255 Machine.boot = (0, (writeCommand 1 29 255 Machine.boot).2) ∧
    setPixelScale 2 29 255 Machine.boot = (0, (writeCommand 3 29 255 Machine.boot).2) :=
  ⟨by decide, by decide, setPixel_regionB 2 29 255 Machine.boot (by decide) (by decide)⟩

/-- C3: on the grid the mapping of `setPixel` is injective: two different pixels with
`x ≤ 8` and `y ≤ 33` both reach `writeCommand`, with different `(page, register)` pairs. -/
theorem setPixel_mapping_injective (x1 y1 x2 y2 : Nat)
    (hx1 : x1 ≤ 8) (hy1 : y1 ≤ 33) (hx2 : x2 ≤ 8) (hy2 : y2 ≤ 33)
    (hne : (x1, y1) ≠ (x2, y2)) :
    ∃ a1 a2 : Nat × Nat, a1 ≠ a2 ∧
      setPixelRegister x1 y1 = .ok a1 ∧ setPixelRegister x2 y2 = .ok a2 ∧
      (∀ v s, setPixel x1 y1 v s = (0, (writeCommand a1.1 a1.2 v s).2)) ∧
      (∀ v s, setPixel x2 y2 v s = (0, (writeCommand a2.1 a2.2 v s).2)) := by
  obtain ⟨a1, h1, c1⟩ := setPixelRegister_grid hx1 hy1
  obtain ⟨a2, h2, c2⟩ := setPixelRegister_grid hx2 hy2
  refine ⟨a1, a2, ?_, h1, h2, setPixel_of_register h1, setPixel_of_register h2⟩
  intro h
  rw [h, c2] at c1
  exact hne (Option.some.inj c1).symm

/-- C3 at the pixels (0, 4) and (8, 30), whose registers 94 and 90 are both on page 1. -/
theorem setPixel_mapping_injective_witness :
    (0, 4) ≠ (8, 30) ∧
    ∃ a1 a2 : Nat × Nat, a1 ≠ a2 ∧
      setPixelRegister 0 4 = .ok a1 ∧ setPixelRegister 8 30 = .ok a2 ∧
      (∀ v s, setPixel 0 4 v s = (0, (writeCommand a1.1 a1.2 v s).2)) ∧
      (∀ v s, setPixel 8 30 v s = (0, (writeCommand a2.1 a2.2 v s).2)) :=
  ⟨by decide, setPixel_mapping_injective 0 4 8 30 (by decide) (by decide) (by decide)
    (by decide) (by decide)⟩

/-- C4 fails on the code at `x = 9` and at `y = 34`: the range check of `setPixel` and of
`setPixelScale` lets both through, the call returns 0 and a register is written
(`setPixel(9, 0, 128)` writes register 226 of page 0, the wrapped value of `30*(8-9)`). -/
theorem setPixel_accepts_x9_y34 :
    setPixel 9 0 128 Machine.boot
      = (0, ⟨0, [Txn.write [0xFE, 0xC5], Txn.write [0xFD, 0], Txn.write [226, 128]], [], []⟩) ∧
    setPixel 0 34 128 Machine.boot
      = (0, ⟨1, [Txn.write [0xFE, 0xC5], Txn.write [0xFD, 1], Txn.write [167, 128]], [], []⟩) ∧
    setPixelScale 9 0 128 Machine.boot
      = (0, ⟨2, [Txn.write [0xFE, 0xC5], Txn.write [0xFD, 2], Txn.write [226, 128]], [], []⟩) ∧
    setPixelScale 0 34 128 Machine.boot
      = (0, ⟨3, [Txn.write [0xFE, 0xC5], Txn.write [0xFD, 3], Txn.write [167, 128]], [], []⟩) := by
  decide

/-! ## The frame writer and the gap set -/

/-- C5: `writeMatrix` with gamma off queues, per page, one message starting at register 0
(so its k-th data byte lands in register k); for every pixel of the grid the data byte at
the register `setPixel` maps the pixel to, in the message of that page, is
`inputMatrix[y][x]`, and the data byte at every gap register of the second page is 0. -/
theorem writeMatrix_round_trip (inputMatrix : Frame) (s : Machine) :
    (writeMatrix inputMatrix false s).2.sent
      = s.sent ++ (if s.currentPage = 0 then [] else selectTxns 0)
          ++ [Txn.write (0 :: writeMatrixData0 inputMatrix false)]
          ++ selectTxns 1
          ++ [Txn.write (0 :: writeMatrixData1 inputMatrix false)] ∧
    (∀ x y, x ≤ 8 → y ≤ 33 → ∃ page reg, setPixelRegister x y = .ok (page, reg) ∧
      ((page = 0 ∧ (writeMatrixData0 inputMatrix false)[reg]? = some (inputMatrix y x)) ∨
       (page = 1 ∧ (writeMatrixData1 inputMatrix false)[reg]? = some (inputMatrix y x)))) ∧
    (∀ g, gapSet g → (writeMatrixData1 inputMatrix false)[g]? = some 0) := by
  refine ⟨writeMatrix_sent inputMatrix false s, ?_, ?_⟩
  · intro x y hx hy
    obtain ⟨⟨page, reg⟩, ha, hc⟩ := setPixelRegister_grid hx hy
    refine ⟨page, reg, ha, ?_⟩
    simp only [frameCell] at hc
    by_cases h0 : page = 0
    · left
      rw [if_pos h0] at hc
      by_cases hr : reg ≤ 0xB3
      · rw [if_pos hr] at hc
        refine ⟨h0, ?_⟩
        rw [writeMatrixData0, getElem?_map_range _ (by omega), Option.some.inj hc]
        rfl
      · rw [if_neg hr] at hc
        cases hc
    · right
      rw [if_neg h0] at hc
      by_cases h1 : page = 1
      · rw [if_pos h1] at hc
        by_cases hr : reg ≤ 0xA0
        · rw [if_pos hr] at hc
          refine ⟨h1, ?_⟩
          rw [writeMatrixData1, getElem?_map_range _ (by omega), hc]
          rfl
        · rw [if_neg hr] at hc
          cases hc
      · rw [if_neg h1] at hc
        cases hc
  · intro g hg
    have hle := gapSet_le hg
    have hnone := (cell1_none_iff_unused g (by omega)).2 ((gapSet_iff_unusedLED g).1 hg)
    rw [writeMatrixData1, getElem?_map_range _ (by omega), hnone]

/-- C5 on the frame with `inputMatrix[y][x] = 9*y + x` (reduced to a byte): the byte for
pixel (0, 4) is at register 94 of the second page and the gap register 60 holds 0. -/
theorem writeMatrix_round_trip_witness :
    (0 ≤ 8 ∧ 4 ≤ 33 ∧ gapSet 60) ∧
    (writeMatrixData1 (fun y x => (9 * y + x) % 256) false)[94]? = some 36 ∧
    (writeMatrixData1 (fun y x => (9 * y + x) % 256) false)[60]? = some 0 := by
  refine ⟨by decide, ?_, ?_⟩
  · obtain ⟨page, reg, h, hh⟩ :=
      (writeMatrix_round_trip (fun y x => (9 * y + x) % 256) Machine.boot).2.1 0 4
        (by decide) (by decide)
    have e : setPixelRegister 0 4 = .ok (1, 94) := by decide
    rw [e] at h
    cases h
    rcases hh with ⟨h0, _⟩ | ⟨_, h1⟩
    · cases h0
    · exact h1
  · exact (writeMatrix_round_trip (fun y x => (9 * y + x) % 256) Machine.boot).2.2 60
      (by decide)

/-- C6: at every index `i` of the first-page loop (0..0xB3), and at every index of the
second-page loop (0..0xA0) outside the gap set, the `(x, y)` that `writeMatrix` computes
lies in the 34-by-9 frame, the byte queued at position `i` is the one for that entry, and
`setPixel` maps that `(x, y)` to exactly register `i` of that page. -/
theorem writeMatrix_inverse_lookup (inputMatrix : Frame) (useGamma : Bool) (i : Nat) :
    (i ≤ 0xB3 →
      (writeMatrixCell0 i).1 ≤ 8 ∧ (writeMatrixCell0 i).2 ≤ 33 ∧
      setPixelRegister (writeMatrixCell0 i).1 (writeMatrixCell0 i).2 = .ok (0, i) ∧
      (writeMatrixData0 inputMatrix useGamma)[i]?
        = some (frameByte inputMatrix useGamma (writeMatrixCell0 i))) ∧
    (i ≤ 0xA0 → ¬ gapSet i →
      ∃ x y, writeMatrixCell1 i = some (x, y) ∧ x ≤ 8 ∧ y ≤ 33 ∧
        setPixelRegister x y = .ok (1, i) ∧
        (writeMatrixData1 inputMatrix useGamma)[i]?
          = some (frameByte inputMatrix useGamma (x, y))) := by
  constructor
  · intro hi
    obtain ⟨h1, h2, h3⟩ := setPixelRegister_cell0 i (by omega)
    exact ⟨h2, h3, h1, by rw [writeMatrixData0, getElem?_map_range _ (by omega)]⟩
  · intro hi hg
    have hsome : writeMatrixCell1 i ≠ none := fun h =>
      hg ((gapSet_iff_unusedLED i).2 ((cell1_none_iff_unused i (by omega)).1 h))
    obtain ⟨⟨x, y⟩, hc⟩ := Option.ne_none_iff_exists'.1 hsome
    obtain ⟨h1, h2, h3⟩ := setPixelRegister_cell1 i (by omega) (x, y) hc
    refine ⟨x, y, hc, h2, h3, h1, ?_⟩
    rw [writeMatrixData1, getElem?_map_range _ (by omega), hc]

/-- C6 at the last index of each loop, 179 on the first page and 160 on the second. -/
theorem writeMatrix_inverse_lookup_witness :
    (179 ≤ 0xB3 ∧ 160 ≤ 0xA0 ∧ ¬ gapSet 160) ∧
    setPixelRegister (writeMatrixCell0 179).1 (writeMatrixCell0 179).2 = .ok (0, 179) ∧
    ∃ x y, writeMatrixCell1 160 = some (x, y) ∧ x ≤ 8 ∧ y ≤ 33 ∧
      setPixelRegister x y = .ok (1, 160) ∧
      (writeMatrixData1 (fun _ _ => 5) false)[160]?
        = some (frameByte (fun _ _ => 5) false (x, y)) :=
  ⟨by decide,
    ((writeMatrix_inverse_lookup (fun _ _ => 5) false 179).1 (by decide)).2.2.1,
    (writeMatrix_inverse_lookup (fun _ _ => 5) false 160).2 (by decide) (by decide)⟩

/-- C7 as stated fails at register `0xAA` of the second page: it is a register of that
page outside the gap set, and no pixel of the grid is mapped to it. -/
theorem gap_set_consistency_counterexample :
    0xAA ≤ 0xAA ∧ ¬ gapSet 0xAA ∧
    ¬ ∃ x y, x ≤ 8 ∧ y ≤ 33 ∧ setPixelRegister x y = .ok (1, 0xAA) := by
  refine ⟨by decide, by decide, ?_⟩
  rintro ⟨x, y, hx, hy, h⟩
  exact setPixelRegister_never_last x (by omega) y (by omega) h

/-- C7, amended: for both domains, no pixel of the grid is mapped to a gap register of the
second page; every register `0x00..0xB3` of the first page, and every register
`0x00..0xA0` of the second page outside the gap set, is the address of exactly one pixel
of the grid; the registers above `0xA0` of the second page are the address of none. -/
theorem gap_set_consistency (r : Nat) :
    (gapSet r → ∀ x y, x ≤ 8 → y ≤ 33 →
      setPixelRegister x y ≠ .ok (1, r) ∧ setPixelScaleRegister x y ≠ .ok (3, r)) ∧
    (r ≤ 0xB3 →
      (∃! c : Nat × Nat, c.1 ≤ 8 ∧ c.2 ≤ 33 ∧ setPixelRegister c.1 c.2 = .ok (0, r)) ∧
      (∃! c : Nat × Nat, c.1 ≤ 8 ∧ c.2 ≤ 33 ∧ setPixelScaleRegister c.1 c.2 = .ok (2, r))) ∧
    (r ≤ 0xA0 → ¬ gapSet r →
      (∃! c : Nat × Nat, c.1 ≤ 8 ∧ c.2 ≤ 33 ∧ setPixelRegister c.1 c.2 = .ok (1, r)) ∧
      (∃! c : Nat × Nat, c.1 ≤ 8 ∧ c.2 ≤ 33 ∧ setPixelScaleRegister c.1 c.2 = .ok (3, r))) ∧
    (0xA0 < r → ∀ x y, x ≤ 8 → y ≤ 33 →
      setPixelRegister x y ≠ .ok (1, r) ∧ setPixelScaleRegister x y ≠ .ok (3, r)) := by
  have scale : ∀ p : Nat,
      (∃! c : Nat × Nat, c.1 ≤ 8 ∧ c.2 ≤ 33 ∧ setPixelRegister c.1 c.2 = .ok (p, r)) →
      (∃! c : Nat × Nat, c.1 ≤ 8 ∧ c.2 ≤ 33 ∧
        setPixelScaleRegister c.1 c.2 = .ok (p + 2, r)) := by
    intro p hp
    simpa only [setPixelScaleRegister_ok_iff] using hp
  refine ⟨?_, ?_, ?_, ?_⟩
  · intro hg x y hx hy
    have h := setPixelRegister_avoids hx hy (Or.inl hg)
    exact ⟨h, fun hs => h ((setPixelScaleRegister_ok_iff x y 1 r).1 hs)⟩
  · intro hr
    have h := setPixelRegister_unique_pixel 0 r (Or.inl ⟨rfl, hr⟩)
    exact ⟨h, scale 0 h⟩
  · intro hr hg
    have h := setPixelRegister_unique_pixel 1 r (Or.inr ⟨rfl, hr, hg⟩)
    exact ⟨h, scale 1 h⟩
  · intro hr x y hx hy
    have h := setPixelRegister_avoids hx hy (Or.inr hr)
    exact ⟨h, fun hs => h ((setPixelScaleRegister_ok_iff x y 1 r).1 hs)⟩

/-- C7 as amended, at the gap register 116, at registers 0 and 160, and at register 161. -/
theorem gap_set_consistency_witness :
    (gapSet 116 ∧ 4 ≤ 8 ∧ 7 ≤ 33 ∧ 0 ≤ 0xB3 ∧ 160 ≤ 0xA0 ∧ ¬ gapSet 160 ∧ 0xA0 < 161) ∧
    setPixelRegister 4 7 ≠ .ok (1, 116) ∧
    (∃! c : Nat × Nat, c.1 ≤ 8 ∧ c.2 ≤ 33 ∧ setPixelRegister c.1 c.2 = .ok (0, 0)) ∧
    (∃! c : Nat × Nat, c.1 ≤ 8 ∧ c.2 ≤ 33 ∧ setPixelScaleRegister c.1 c.2 = .ok (3, 160)) ∧
    setPixelScaleRegister 4 7 ≠ .ok (3, 161) :=
  ⟨by decide,
    ((gap_set_consistency 116).1 (by decide) 4 7 (by decide) (by decide)).1,
    ((gap_set_consistency 0).2.1 (by decide)).1,
    ((gap_set_consistency 160).2.2.1 (by decide) (by decide)).2,
    ((gap_set_consistency 161).2.2.2 (by decide) 4 7 (by decide) (by decide)).2⟩

/-! ## Page selection -/

/-- C8: for every page `p > 4` and every state, `selectPage p` returns 5 and leaves the
whole state as it was: nothing is sent and the cached page is unchanged. -/
theorem selectPage_out_of_range (p : Nat) (s : Machine) (h : p > 4) :
    selectPage p s = (5, s) ∧
    (selectPage p s).2.sent = s.sent ∧
    (selectPage p s).2.currentPage = s.currentPage := by
  have e : selectPage p s = (5, s) := by simp [selectPage, h]
  rw [e]
  exact ⟨rfl, rfl, rfl⟩

/-- C8 at `selectPage(5)`, from startup and from a state whose cache holds page 3. -/
theorem selectPage_out_of_range_witness :
    5 > 4 ∧ selectPage 5 Machine.boot = (5, Machine.boot) ∧
    (selectPage 5 ⟨3, [Txn.write [1, 2]], [0], []⟩).2.currentPage = 3 :=
  ⟨by decide, (selectPage_out_of_range 5 Machine.boot (by decide)).1,
    (selectPage_out_of_range 5 ⟨3, [Txn.write [1, 2]], [0], []⟩ (by decide)).2.2⟩

/-- C9: for every page `p ≤ 4`, when the cached page equals `p`, `selectPage p` returns 0
and leaves the whole state as it was: no unlock and no page-select message is sent and the
cache still equals `p`. -/
theorem selectPage_cache_hit (p : Nat) (s : Machine) (hp : p ≤ 4) (hc : s.currentPage = p) :
    selectPage p s = (0, s) ∧
    (selectPage p s).2.sent = s.sent ∧
    (selectPage p s).2.currentPage = p := by
  rw [selectPage_hit hp hc]
  exact ⟨rfl, rfl, hc⟩

/-- C9 at page 2 with the cache holding 2 and a bus that would report status 7. -/
theorem selectPage_cache_hit_witness :
    (2 ≤ 4 ∧ (⟨2, [], [7, 7], []⟩ : Machine).currentPage = 2) ∧
    selectPage 2 ⟨2, [], [7, 7], []⟩ = (0, ⟨2, [], [7, 7], []⟩) :=
  ⟨by decide, (selectPage_cache_hit 2 ⟨2, [], [7, 7], []⟩ (by decide) rfl).1⟩

/-- C10: for every page `p ≤ 4` different from the cached page, `selectPage p` sends
exactly two messages, `[0xFE, 0xC5]` then `[0xFD, p]`, whatever the status of the first;
it returns the larger of the two statuses the bus reports for them, and the cache becomes
`p` when both statuses are 0 and `0xFF` otherwise. -/
theorem selectPage_cache_miss (p : Nat) (s : Machine) (hp : p ≤ 4) (hc : s.currentPage ≠ p) :
    (selectPage p s).1 = max (s.acks.headD 0 % 256) (s.acks.tail.headD 0 % 256) ∧
    (selectPage p s).2.sent = s.sent ++ [Txn.write [0xFE, 0xC5], Txn.write [0xFD, p]] ∧
    (selectPage p s).2.acks = s.acks.tail.tail ∧
    (selectPage p s).2.currentPage
      = (if s.acks.headD 0 % 256 = 0 ∧ s.acks.tail.headD 0 % 256 = 0 then p else 0xFF) ∧
    (unlockCommandRegister s).1 = s.acks.headD 0 % 256 ∧
    (endTransmission [0xFD, p] (unlockCommandRegister s).2).1 = s.acks.tail.headD 0 % 256 := by
  rw [selectPage_miss hp hc]
  refine ⟨Nat.max_comm _ _, rfl, rfl, ?_, rfl, rfl⟩
  dsimp only
  by_cases h : s.acks.headD 0 % 256 = 0 ∧ s.acks.tail.headD 0 % 256 = 0
  · rw [if_pos h, h.1, h.2]
    rfl
  · rw [if_neg h, if_neg]
    intro hm
    exact h ⟨by omega, by omega⟩

/-- C10 from startup with a failed unlock (status 2) and an acknowledged page select: both
messages are sent, the result is 2 and the cache is the sentinel. -/
theorem selectPage_cache_miss_witness :
    (3 ≤ 4 ∧ (⟨0xFF, [], [2, 0], []⟩ : Machine).currentPage ≠ 3) ∧
    (selectPage 3 ⟨0xFF, [], [2, 0], []⟩).1 = 2 ∧
    (selectPage 3 ⟨0xFF, [], [2, 0], []⟩).2.sent
      = [Txn.write [0xFE, 0xC5], Txn.write [0xFD, 3]] ∧
    (selectPage 3 ⟨0xFF, [], [2, 0], []⟩).2.currentPage = 0xFF :=
  ⟨by decide,
    (selectPage_cache_miss 3 ⟨0xFF, [], [2, 0], []⟩ (by decide) (by decide)).1,
    (selectPage_cache_miss 3 ⟨0xFF, [], [2, 0], []⟩ (by decide) (by decide)).2.1,
    (selectPage_cache_miss 3 ⟨0xFF, [], [2, 0], []⟩ (by decide) (by decide)).2.2.2.1⟩

/-! ## Lemmas on the two-page writers -/

theorem writeAll_eq (value : Nat) (s : Machine) :
    writeAll value s = twoPageWrite 0 1 (writeAllData0 value) (writeAllData1 value) s := rfl

theorem writeAllScale_eq (value : Nat) (s : Machine) :
    writeAllScale value s
      = twoPageWrite 2 3 (writeAllData0 value) (writeAllData1 value) s := rfl

theorem writeMatrix_eq (inputMatrix : Frame) (useGamma : Bool) (s : Machine) :
    writeMatrix inputMatrix useGamma s
      = twoPageWrite 0 1 (writeMatrixData0 inputMatrix useGamma)
          (writeMatrixData1 inputMatrix useGamma) s := rfl

theorem writeMatrixScale_eq (inputMatrix : Frame) (useGamma : Bool) (s : Machine) :
    writeMatrixScale inputMatrix useGamma s
      = twoPageWrite 2 3 (writeMatrixData0 inputMatrix useGamma)
          (writeMatrixData1 inputMatrix useGamma) s := rfl

/-- What a two-page write puts on the wire: the second page selection always misses. -/
theorem twoPageWrite_sent {p q : Nat} (hp : p ≤ 4) (hq : q ≤ 4) (hpq : p ≠ q)
    (d0 d1 : List Nat) (s : Machine) :
    (twoPageWrite p q d0 d1 s).2.sent
      = s.sent ++ (if s.currentPage = p then [] else selectTxns p)
          ++ [Txn.write (0 :: d0)] ++ selectTxns q ++ [Txn.write (0 :: d1)] := by
  have h1 : (endTransmission (0 :: d0) (selectPage p s).2).2.currentPage ≠ q := by
    rw [endTransmission_currentPage]
    rcases selectPage_currentPage s hp with h | h <;> rw [h] <;> omega
  simp only [twoPageWrite, endTransmission_sent]
  rw [selectPage_sent _ hq, if_neg h1, endTransmission_sent, selectPage_sent _ hp]

theorem selectTxns_length (p : Nat) : (selectTxns p).length = 2 := rfl

/-! ## Counting the transactions -/

/-- C11 as stated fails from startup: two calls of `selectPage(2)` on a bus that
acknowledges everything put two messages on the wire, not one; and when the first
selection fails (status 2 for the unlock) the second call is not a no-op: four messages. -/
theorem selectPage_twice_counterexample :
    (selectPage 2 (selectPage 2 Machine.boot).2).2.sent
      = [Txn.write [0xFE, 0xC5], Txn.write [0xFD, 2]] ∧
    (selectPage 2 (selectPage 2 ⟨0xFF, [], [2], []⟩).2).2.sent
      = [Txn.write [0xFE, 0xC5], Txn.write [0xFD, 2],
         Txn.write [0xFE, 0xC5], Txn.write [0xFD, 2]] := by
  decide

/-- C11, amended: for `p ≤ 4`, two calls of `selectPage p` in succession send nothing at
all when the cache already holds `p`; otherwise the first call sends exactly the two
messages of a selection, and the second call sends nothing when the first returned 0 and
sends the two messages again when the first returned a non-zero status. -/
theorem selectPage_twice (p : Nat) (s : Machine) (hp : p ≤ 4) :
    (s.currentPage = p → selectPage p (selectPage p s).2 = (0, s)) ∧
    (s.currentPage ≠ p →
      (selectPage p s).2.sent = s.sent ++ selectTxns p ∧
      ((selectPage p s).1 = 0 →
        selectPage p (selectPage p s).2 = (0, (selectPage p s).2)) ∧
      ((selectPage p s).1 ≠ 0 →
        (selectPage p (selectPage p s).2).2.sent
          = s.sent ++ selectTxns p ++ selectTxns p)) := by
  constructor
  · intro hc
    rw [selectPage_hit hp hc, selectPage_hit hp hc]
  · intro hc
    have hs := selectPage_sent s hp
    rw [if_neg hc] at hs
    refine ⟨hs, ?_, ?_⟩
    · intro h0
      apply selectPage_hit hp
      rw [selectPage_miss hp hc] at h0 ⊢
      dsimp only at h0 ⊢
      rw [if_pos h0]
    · intro h0
      have hcur : (selectPage p s).2.currentPage ≠ p := by
        rw [selectPage_miss hp hc] at h0 ⊢
        dsimp only at h0 ⊢
        rw [if_neg h0]
        omega
      rw [selectPage_sent _ hp, if_neg hcur, hs]

/-- C11 as amended, at page 2: with the cache holding 2, from startup, and from startup
with a failing unlock. -/
theorem selectPage_twice_witness :
    (2 ≤ 4 ∧ (⟨2, [], [], []⟩ : Machine).currentPage = 2 ∧ Machine.boot.currentPage ≠ 2) ∧
    selectPage 2 (selectPage 2 ⟨2, [], [], []⟩).2 = (0, ⟨2, [], [], []⟩) ∧
    selectPage 2 (selectPage 2 Machine.boot).2 = (0, (selectPage 2 Machine.boot).2) ∧
    (selectPage 2 (selectPage 2 ⟨0xFF, [], [2], []⟩).2).2.sent
      = [] ++ selectTxns 2 ++ selectTxns 2 :=
  ⟨by decide,
    (selectPage_twice 2 ⟨2, [], [], []⟩ (by decide)).1 rfl,
    ((selectPage_twice 2 Machine.boot (by decide)).2 (by decide)).2.1 (by decide),
    ((selectPage_twice 2 ⟨0xFF, [], [2], []⟩ (by decide)).2 (by decide)).2.2 (by decide)⟩

/-- C12 as stated fails from startup: one call of `writeMatrix` puts six messages on the
wire (unlock, select page 0, data, unlock, select page 1, data), not two. -/
theorem writeMatrix_two_transactions_counterexample :
    (writeMatrix (fun _ _ => 0) false Machine.boot).2.sent.length = 6 ∧
    (writeMatrix (fun _ _ => 0) false Machine.boot).2.sent
      = [Txn.write [0xFE, 0xC5], Txn.write [0xFD, 0],
         Txn.write (0 :: writeMatrixData0 (fun _ _ => 0) false),
         Txn.write [0xFE, 0xC5], Txn.write [0xFD, 1],
         Txn.write (0 :: writeMatrixData1 (fun _ _ => 0) false)] := by
  rw [writeMatrix_sent]
  simp [Machine.boot, selectTxns]

/-- C12, amended: for every frame, gamma flag, cache state and bus behaviour, one call of
`writeMatrix` sends exactly two data messages, one per page, each starting at register 0;
the second is always preceded by the unlock and page-select messages for page 1, the first
by those for page 0 unless the cache already holds page 0: six messages in total, four
when the cache holds page 0. -/
theorem writeMatrix_transactions (inputMatrix : Frame) (useGamma : Bool) (s : Machine) :
    (writeMatrix inputMatrix useGamma s).2.sent
      = s.sent ++ (if s.currentPage = 0 then [] else selectTxns 0)
          ++ [Txn.write (0 :: writeMatrixData0 inputMatrix useGamma)]
          ++ selectTxns 1
          ++ [Txn.write (0 :: writeMatrixData1 inputMatrix useGamma)] ∧
    (writeMatrix inputMatrix useGamma s).2.sent.length
      = s.sent.length + (if s.currentPage = 0 then 4 else 6) := by
  refine ⟨writeMatrix_sent inputMatrix useGamma s, ?_⟩
  rw [writeMatrix_sent]
  by_cases h : s.currentPage = 0
  · simp [h, selectTxns_length]
  · simp [h, selectTxns_length]

/-! ## Surfacing of the bus statuses -/

/-- C13: for every page, register and value, `writeCommand` sends the message
`[reg, value]` exactly once, after the messages of the page selection (none when the page
is above 4 or cached), whatever the status of that selection; it returns the larger of the
selection status and the status of the write, which is 0 exactly when both are 0. -/
theorem writeCommand_attempts_write (page reg value : Nat) (s : Machine) :
    (writeCommand page reg value s).2.sent
      = s.sent ++ (if page > 4 ∨ s.currentPage = page then [] else selectTxns page)
          ++ [Txn.write [reg, value]] ∧
    (writeCommand page reg value s).1
      = max (selectPage page s).1 (endTransmission [reg, value] (selectPage page s).2).1 ∧
    ((writeCommand page reg value s).1 = 0 ↔
      (selectPage page s).1 = 0 ∧
      (endTransmission [reg, value] (selectPage page s).2).1 = 0) := by
  refine ⟨?_, rfl, ?_⟩
  · rw [writeCommand_sent]
    by_cases hp : page > 4
    · simp [selectPage, hp]
    · rw [selectPage_sent _ (by omega)]
      simp [hp]
  · show max _ _ = 0 ↔ _
    omega

/-- C14 fails on the code: from startup, on a bus that reports status 2 for every message,
`setPixel(3, 0, 128)` and `setPixelScale(3, 0, 128)` return 0 although the page selection
and the register write they perform both report 2 (`writeCommand` returns 2). -/
theorem setPixel_discards_bus_status :
    setPixelRegister 3 0 = .ok (0, 150) ∧
    (selectPage 0 ⟨0xFF, [], [2, 2, 2], []⟩).1 = 2 ∧
    (writeCommand 0 150 128 ⟨0xFF, [], [2, 2, 2], []⟩).1 = 2 ∧
    (setPixel 3 0 128 ⟨0xFF, [], [2, 2, 2], []⟩).1 = 0 ∧
    (writeCommand 2 150 128 ⟨0xFF, [], [2, 2, 2], []⟩).1 = 2 ∧
    (setPixelScale 3 0 128 ⟨0xFF, [], [2, 2, 2], []⟩).1 = 0 := by
  decide

/-! ## Gamma -/

/-- On a byte `getGamma` is the exact quotient: neither the product nor the result wraps. -/
theorem getGamma_of_byte {v : Nat} (h : v < 256) :
    v * v < 65536 ∧ v * v / 255 < 256 ∧ getGamma v = v * v / 255 := by
  have hm : v * v ≤ 255 * 255 := Nat.mul_le_mul (by omega) (by omega)
  have hv : v % 65536 = v := Nat.mod_eq_of_lt (by omega)
  unfold getGamma
  rw [hv]
  generalize v * v = m at hm
  omega

/-- C15: `getGamma(0) = 0`, `getGamma(255) = 255`, and `getGamma` is non-decreasing on the
bytes: `getGamma a ≤ getGamma b` whenever `a ≤ b ≤ 255`. -/
theorem getGamma_monotone :
    getGamma 0 = 0 ∧ getGamma 255 = 255 ∧
    ∀ a b, a ≤ b → b ≤ 255 → getGamma a ≤ getGamma b := by
  refine ⟨by decide, by decide, ?_⟩
  intro a b hab hb
  rw [(getGamma_of_byte (by omega : a < 256)).2.2, (getGamma_of_byte (by omega : b < 256)).2.2]
  exact Nat.div_le_div_right (Nat.mul_le_mul hab hab)

/-- C15 at the bytes 100 and 200, whose images are 39 and 156. -/
theorem getGamma_monotone_witness :
    (100 ≤ 200 ∧ 200 ≤ 255) ∧ getGamma 100 = 39 ∧ getGamma 200 = 156 ∧
    getGamma 100 ≤ getGamma 200 :=
  ⟨by decide, by decide, by decide, getGamma_monotone.2.2 100 200 (by decide) (by decide)⟩

/-- C16: for a frame of bytes, the data `writeMatrix` streams with gamma on is, position by
position, `v * v / 255` in exact arithmetic of the byte `v` it streams with gamma off, on
both pages; for a byte the product stays below 2^16 and the quotient below 2^8, and the
gap positions of the second page stay 0. -/
theorem writeMatrix_gamma (inputMatrix : Frame) (s : Machine)
    (hbyte : ∀ y x, y < 34 → x < 9 → inputMatrix y x < 256) :
    writeMatrixData0 inputMatrix true
      = (writeMatrixData0 inputMatrix false).map (fun v => v * v / 255) ∧
    writeMatrixData1 inputMatrix true
      = (writeMatrixData1 inputMatrix false).map (fun v => v * v / 255) ∧
    (writeMatrix inputMatrix true s).2.sent
      = s.sent ++ (if s.currentPage = 0 then [] else selectTxns 0)
          ++ [Txn.write (0 :: (writeMatrixData0 inputMatrix false).map (fun v => v * v / 255))]
          ++ selectTxns 1
          ++ [Txn.write (0 :: (writeMatrixData1 inputMatrix false).map (fun v => v * v / 255))] ∧
    (∀ v, v < 256 → v * v < 65536 ∧ v * v / 255 < 256 ∧ getGamma v = v * v / 255) ∧
    (∀ g, gapSet g → (writeMatrixData1 inputMatrix true)[g]? = some 0) := by
  have h0 : writeMatrixData0 inputMatrix true
      = (writeMatrixData0 inputMatrix false).map (fun v => v * v / 255) := by
    unfold writeMatrixData0
    rw [List.map_map]
    apply List.map_congr_left
    intro i hi
    obtain ⟨_, hx, hy⟩ := setPixelRegister_cell0 i (by simpa using hi)
    exact (getGamma_of_byte (hbyte _ _ (by omega) (by omega))).2.2
  have h1 : writeMatrixData1 inputMatrix true
      = (writeMatrixData1 inputMatrix false).map (fun v => v * v / 255) := by
    unfold writeMatrixData1
    rw [List.map_map]
    apply List.map_congr_left
    intro i hi
    cases hc : writeMatrixCell1 i with
    | none => simp [hc]
    | some c =>
      obtain ⟨_, hx, hy⟩ := setPixelRegister_cell1 i (by simpa using hi) c hc
      simpa [hc, frameByte] using (getGamma_of_byte (hbyte _ _ (by omega) (by omega))).2.2
  refine ⟨h0, h1, ?_, fun v hv => getGamma_of_byte hv, ?_⟩
  · rw [writeMatrix_sent, h0, h1]
  · intro g hg
    have hle := gapSet_le hg
    have hnone := (cell1_none_iff_unused g (by omega)).2 ((gapSet_iff_unusedLED g).1 hg)
    rw [writeMatrixData1, getElem?_map_range _ (by omega), hnone]

/-- C16 on the frame with `inputMatrix[y][x] = (9*y + x) mod 256`. -/
theorem writeMatrix_gamma_witness :
    (∀ y x, y < 34 → x < 9 → (fun y x => (9 * y + x) % 256) y x < 256) ∧
    writeMatrixData0 (fun y x => (9 * y + x) % 256) true
      = (writeMatrixData0 (fun y x => (9 * y + x) % 256) false).map (fun v => v * v / 255) ∧
    writeMatrixData1 (fun y x => (9 * y + x) % 256) true
      = (writeMatrixData1 (fun y x => (9 * y + x) % 256) false).map (fun v => v * v / 255) :=
  ⟨fun y x _ _ => Nat.mod_lt _ (by decide),
    (writeMatrix_gamma (fun y x => (9 * y + x) % 256) Machine.boot
      (fun y x _ _ => Nat.mod_lt _ (by decide))).1,
    (writeMatrix_gamma (fun y x => (9 * y + x) % 256) Machine.boot
      (fun y x _ _ => Nat.mod_lt _ (by decide))).2.1⟩

/-! ## The constant fill -/

/-- C17: `writeAll v` sends one data message per page starting at register 0; the data
byte at every register that `setPixel` maps a pixel of the grid to is `v`, and the data
byte at every gap register of the second page is 0. -/
theorem writeAll_paints (v : Nat) (s : Machine) :
    (writeAll v s).2.sent
      = s.sent ++ (if s.currentPage = 0 then [] else selectTxns 0)
          ++ [Txn.write (0 :: writeAllData0 v)]
          ++ selectTxns 1
          ++ [Txn.write (0 :: writeAllData1 v)] ∧
    (∀ x y, x ≤ 8 → y ≤ 33 → ∃ page reg, setPixelRegister x y = .ok (page, reg) ∧
      ((page = 0 ∧ (writeAllData0 v)[reg]? = some v) ∨
       (page = 1 ∧ (writeAllData1 v)[reg]? = some v))) ∧
    (∀ g, gapSet g → (writeAllData1 v)[g]? = some 0) := by
  refine ⟨?_, ?_, ?_⟩
  · rw [writeAll_eq]
    exact twoPageWrite_sent (by decide) (by decide) (by decide) _ _ s
  · intro x y hx hy
    obtain ⟨⟨page, reg⟩, ha, hc⟩ := setPixelRegister_grid hx hy
    refine ⟨page, reg, ha, ?_⟩
    simp only [frameCell] at hc
    by_cases h0 : page = 0
    · left
      rw [if_pos h0] at hc
      by_cases hr : reg ≤ 0xB3
      · exact ⟨h0, by rw [writeAllData0, getElem?_map_range _ (by omega)]⟩
      · rw [if_neg hr] at hc
        cases hc
    · right
      rw [if_neg h0] at hc
      by_cases h1 : page = 1
      · rw [if_pos h1] at hc
        by_cases hr : reg ≤ 0xA0
        · rw [if_pos hr] at hc
          refine ⟨h1, ?_⟩
          have hu : unusedLED reg ≠ true := fun hu => by
            rw [(cell1_none_iff_unused reg (by omega)).2 hu] at hc
            cases hc
          rw [writeAllData1, getElem?_map_range _ (by omega), if_neg hu]
        · rw [if_neg hr] at hc
          cases hc
      · rw [if_neg h1] at hc
        cases hc
  · intro g hg
    have hle := gapSet_le hg
    rw [writeAllData1, getElem?_map_range _ (by omega),
      if_pos ((gapSet_iff_unusedLED g).1 hg)]

/-- C17 at value 200: register 94 of the second page (pixel (0, 4)) gets 200 and the gap
register 125 gets 0. -/
theorem writeAll_paints_witness :
    (0 ≤ 8 ∧ 4 ≤ 33 ∧ gapSet 125) ∧
    (writeAllData1 200)[94]? = some 200 ∧ (writeAllData1 200)[125]? = some 0 := by
  refine ⟨by decide, ?_, (writeAll_paints 200 Machine.boot).2.2 125 (by decide)⟩
  obtain ⟨page, reg, h, hh⟩ := (writeAll_paints 200 Machine.boot).2.1 0 4 (by decide) (by decide)
  have e : setPixelRegister 0 4 = .ok (1, 94) := by decide
  rw [e] at h
  cases h
  rcases hh with ⟨h0, _⟩ | ⟨_, h1⟩
  · cases h0
  · exact h1

/-! ## The two domains -/

theorem endTransmission_status (bytes : List Nat) (s : Machine) :
    (endTransmission bytes s).1 = s.acks.headD 0 % 256 := rfl

theorem endTransmission_acks (bytes : List Nat) (s : Machine) :
    (endTransmission bytes s).2.acks = s.acks.tail := rfl

/-- Page selections of `p` from `s1` and of `q` from `s2` run alike when the bus statuses
to come are the same and the cache of `s1` holds `p` exactly when that of `s2` holds `q`. -/
theorem selectPage_shift {p q : Nat} (hp : p ≤ 4) (hq : q ≤ 4) {s1 s2 : Machine}
    (hacks : s2.acks = s1.acks) (hc : s1.currentPage = p ↔ s2.currentPage = q) :
    (selectPage q s2).1 = (selectPage p s1).1 ∧
    (selectPage q s2).2.acks = (selectPage p s1).2.acks ∧
    ((selectPage p s1).2.currentPage = p ∨ (selectPage p s1).2.currentPage = 0xFF) ∧
    ((selectPage q s2).2.currentPage = q ∨ (selectPage q s2).2.currentPage = 0xFF) := by
  refine ⟨?_, ?_, selectPage_currentPage s1 hp, selectPage_currentPage s2 hq⟩
  · by_cases h : s1.currentPage = p
    · rw [selectPage_hit hp h, selectPage_hit hq (hc.1 h)]
    · rw [selectPage_miss hp h, selectPage_miss hq (fun h2 => h (hc.2 h2)), hacks]
  · by_cases h : s1.currentPage = p
    · rw [selectPage_hit hp h, selectPage_hit hq (hc.1 h)]
      exact hacks
    · rw [selectPage_miss hp h, selectPage_miss hq (fun h2 => h (hc.2 h2)), hacks]

/-- Two-page writes to the pages `p, q` from `s1` and to `p2, q2` from `s2` return the same
status under the hypotheses of `selectPage_shift`. -/
theorem twoPageWrite_shift {p q p2 q2 : Nat} (hp : p ≤ 4) (hq : q ≤ 4) (hp2 : p2 ≤ 4)
    (hq2 : q2 ≤ 4) (hpq : p ≠ q) (hpq2 : p2 ≠ q2) (d0 d1 : List Nat) {s1 s2 : Machine}
    (hacks : s2.acks = s1.acks) (hc : s1.currentPage = p ↔ s2.currentPage = p2) :
    (twoPageWrite p2 q2 d0 d1 s2).1 = (twoPageWrite p q d0 d1 s1).1 := by
  obtain ⟨e1, a1, c1, c2⟩ := selectPage_shift hp hp2 hacks hc
  have hacks2 : (endTransmission (0 :: d0) (selectPage p2 s2).2).2.acks
      = (endTransmission (0 :: d0) (selectPage p s1).2).2.acks := by
    rw [endTransmission_acks, endTransmission_acks, a1]
  have hc2 : (endTransmission (0 :: d0) (selectPage p s1).2).2.currentPage = q
      ↔ (endTransmission (0 :: d0) (selectPage p2 s2).2).2.currentPage = q2 := by
    rw [endTransmission_currentPage, endTransmission_currentPage]
    constructor
    · intro h
      rcases c1 with c | c <;> omega
    · intro h
      rcases c2 with c | c <;> omega
  obtain ⟨e2, a2, _, _⟩ := selectPage_shift hq hq2 hacks2 hc2
  simp only [twoPageWrite, endTransmission_status]
  rw [e1, e2, a1, a2]

theorem setPixelRegister_page {x y page reg : Nat}
    (h : setPixelRegister x y = .ok (page, reg)) : page = 0 ∨ page = 1 := by
  unfold setPixelRegister at h
  split_ifs at h <;> simp_all

/-- C18 as stated fails when both runs start from the cache state "page 0" with the same
bus statuses: `setPixel(3, 0, 128)` sends one message and `setPixelScale(3, 0, 128)`
three; and on a bus whose fifth status is 2, `writeAll(7)` returns 0 and
`writeAllScale(7)` returns 2. -/
theorem scale_same_cache_counterexample :
    (setPixel 3 0 128 ⟨0, [], [], []⟩).2.sent = [Txn.write [150, 128]] ∧
    (setPixelScale 3 0 128 ⟨0, [], [], []⟩).2.sent
      = [Txn.write [0xFE, 0xC5], Txn.write [0xFD, 2], Txn.write [150, 128]] ∧
    (writeAll 7 ⟨0, [], [0, 0, 0, 0, 2], []⟩).1 = 0 ∧
    (writeAllScale 7 ⟨0, [], [0, 0, 0, 0, 2], []⟩).1 = 2 := by
  decide

/-- C18, amended: let the brightness call start from `s1` and the scale call from `s2`,
with the same bus statuses to come and corresponding caches (`s2` holds page 2 exactly
when `s1` holds page 0, and page 3 exactly when `s1` holds page 1; in particular the same
cache state holding none of the pages 0 to 3).  Then `setPixelScale`, `writeAllScale` and
`writeMatrixScale` return the status of `setPixel`, `writeAll` and `writeMatrix`, and send
the same messages in the same order, the page-select messages naming page 2 for page 0
and page 3 for page 1. -/
theorem scale_shares_layout (s1 s2 : Machine) (hacks : s2.acks = s1.acks)
    (h0 : s1.currentPage = 0 ↔ s2.currentPage = 2)
    (h1 : s1.currentPage = 1 ↔ s2.currentPage = 3) :
    (∀ x y v,
      (setPixelScale x y v s2).1 = (setPixel x y v s1).1 ∧
      (∀ e, setPixelRegister x y = .error e →
        setPixel x y v s1 = (e, s1) ∧ setPixelScale x y v s2 = (e, s2)) ∧
      (∀ page reg, setPixelRegister x y = .ok (page, reg) →
        (setPixel x y v s1).2.sent
          = s1.sent ++ (if s1.currentPage = page then [] else selectTxns page)
              ++ [Txn.write [reg, v]] ∧
        (setPixelScale x y v s2).2.sent
          = s2.sent ++ (if s1.currentPage = page then [] else selectTxns (page + 2))
              ++ [Txn.write [reg, v]])) ∧
    (∀ v,
      (writeAllScale v s2).1 = (writeAll v s1).1 ∧
      (writeAll v s1).2.sent
        = s1.sent ++ (if s1.currentPage = 0 then [] else selectTxns 0)
            ++ [Txn.write (0 :: writeAllData0 v)] ++ selectTxns 1
            ++ [Txn.write (0 :: writeAllData1 v)] ∧
      (writeAllScale v s2).2.sent
        = s2.sent ++ (if s1.currentPage = 0 then [] else selectTxns 2)
            ++ [Txn.write (0 :: writeAllData0 v)] ++ selectTxns 3
            ++ [Txn.write (0 :: writeAllData1 v)]) ∧
    (∀ inputMatrix useGamma,
      (writeMatrixScale inputMatrix useGamma s2).1 = (writeMatrix inputMatrix useGamma s1).1 ∧
      (writeMatrix inputMatrix useGamma s1).2.sent
        = s1.sent ++ (if s1.currentPage = 0 then [] else selectTxns 0)
            ++ [Txn.write (0 :: writeMatrixData0 inputMatrix useGamma)] ++ selectTxns 1
            ++ [Txn.write (0 :: writeMatrixData1 inputMatrix useGamma)] ∧
      (writeMatrixScale inputMatrix useGamma s2).2.sent
        = s2.sent ++ (if s1.currentPage = 0 then [] else selectTxns 2)
            ++ [Txn.write (0 :: writeMatrixData0 inputMatrix useGamma)] ++ selectTxns 3
            ++ [Txn.write (0 :: writeMatrixData1 inputMatrix useGamma)]) := by
  have hif : ∀ t : List Txn, (if s2.currentPage = 2 then [] else t)
      = (if s1.currentPage = 0 then [] else t) := by
    intro t
    by_cases h : s1.currentPage = 0
    · rw [if_pos h, if_pos (h0.1 h)]
    · rw [if_neg h, if_neg (fun h2 => h (h0.2 h2))]
  refine ⟨?_, ?_, ?_⟩
  · intro x y v
    cases hr : setPixelRegister x y with
    | error e =>
      have hs : setPixelScaleRegister x y = .error e := by
        rw [setPixelScaleRegister_eq, hr]
        rfl
      have e1 : setPixel x y v s1 = (e, s1) := by simp [setPixel, hr]
      have e2 : setPixelScale x y v s2 = (e, s2) := by simp [setPixelScale, hs]
      refine ⟨by rw [e1, e2], ?_, ?_⟩
      · intro e' he
        cases he
        exact ⟨e1, e2⟩
      · intro page reg he
        cases he
    | ok a =>
      obtain ⟨pg, rg⟩ := a
      have hs : setPixelScaleRegister x y = .ok (pg + 2, rg) :=
        (setPixelScaleRegister_ok_iff x y pg rg).2 hr
      have e1 := setPixel_of_register hr v s1
      have e2 := setPixelScale_of_register hs v s2
      refine ⟨by rw [e1, e2], ?_, ?_⟩
      · intro e he
        cases he
      · intro page reg he
        cases he
        have hpg := setPixelRegister_page hr
        have hcache : s2.currentPage = pg + 2 ↔ s1.currentPage = pg := by
          rcases hpg with rfl | rfl
          · exact h0.symm
          · exact h1.symm
        rw [e1, e2, writeCommand_sent, writeCommand_sent,
          selectPage_sent _ (by omega : pg ≤ 4), selectPage_sent _ (by omega : pg + 2 ≤ 4)]
        refine ⟨rfl, ?_⟩
        by_cases h : s1.currentPage = pg
        · rw [if_pos h, if_pos (hcache.2 h)]
        · rw [if_neg h, if_neg (fun h2 => h (hcache.1 h2))]
  · intro v
    refine ⟨?_, ?_, ?_⟩
    · rw [writeAllScale_eq, writeAll_eq]
      exact twoPageWrite_shift (by decide) (by decide) (by decide) (by decide) (by decide)
        (by decide) _ _ hacks h0
    · rw [writeAll_eq]
      exact twoPageWrite_sent (by decide) (by decide) (by decide) _ _ s1
    · rw [writeAllScale_eq, twoPageWrite_sent (by decide) (by decide) (by decide), hif]
  · intro inputMatrix useGamma
    refine ⟨?_, writeMatrix_sent inputMatrix useGamma s1, ?_⟩
    · rw [writeMatrixScale_eq, writeMatrix_eq]
      exact twoPageWrite_shift (by decide) (by decide) (by decide) (by decide) (by decide)
        (by decide) _ _ hacks h0
    · rw [writeMatrixScale_eq, twoPageWrite_sent (by decide) (by decide) (by decide), hif]

/-- C18 as amended, with both runs starting from the startup state (cache unknown). -/
theorem scale_shares_layout_witness :
    (Machine.boot.acks = Machine.boot.acks ∧
      (Machine.boot.currentPage = 0 ↔ Machine.boot.currentPage = 2) ∧
      (Machine.boot.currentPage = 1 ↔ Machine.boot.currentPage = 3)) ∧
    (writeAllScale 7 Machine.boot).1 = (writeAll 7 Machine.boot).1 ∧
    (setPixelScale 3 0 128 Machine.boot).1 = (setPixel 3 0 128 Machine.boot).1 :=
  ⟨by decide,
    ((scale_shares_layout Machine.boot Machine.boot rfl (by decide) (by decide)).2.1 7).1,
    ((scale_shares_layout Machine.boot Machine.boot rfl (by decide) (by decide)).1 3 0 128).1⟩

/-! ## Reset and configuration -/

/-- C19: from every state, `matrixReset` is the sequence of five calls of `writeCommand`
on page 4, in this order: reset `(0x3F, 0xAE)`, configuration `(0x00, 0x09)`, global
current `(0x01, 0xFF)`, pull resistors `(0x02, 0x66)`, PWM frequency `(0x36, 0x00)`.  On
the wire the five register writes appear in that order, each preceded by nothing or by the
two messages selecting page 4, whatever the statuses of the earlier steps. -/
theorem matrixReset_sequence (s : Machine) :
    matrixReset s
      = (writeCommand 4 0x36 0x00 (writeCommand 4 0x02 0x66 (writeCommand 4 0x01 0xFF
          (writeCommand 4 0x00 0x09 (writeCommand 4 0x3F 0xAE s).2).2).2).2).2 ∧
    ∃ t1 t2 t3 t4 t5 : List Txn,
      (∀ t ∈ [t1, t2, t3, t4, t5], t = [] ∨ t = selectTxns 4) ∧
      (matrixReset s).sent
        = s.sent ++ t1 ++ [Txn.write [0x3F, 0xAE]] ++ t2 ++ [Txn.write [0x00, 0x09]]
            ++ t3 ++ [Txn.write [0x01, 0xFF]] ++ t4 ++ [Txn.write [0x02, 0x66]]
            ++ t5 ++ [Txn.write [0x36, 0x00]] := by
  have step : ∀ (reg value : Nat) (m : Machine), ∃ t : List Txn,
      (t = [] ∨ t = selectTxns 4) ∧
      (writeCommand 4 reg value m).2.sent = m.sent ++ t ++ [Txn.write [reg, value]] := by
    intro reg value m
    refine ⟨if m.currentPage = 4 then [] else selectTxns 4, ?_, ?_⟩
    · by_cases h : m.currentPage = 4
      · exact Or.inl (if_pos h)
      · exact Or.inr (if_neg h)
    · rw [writeCommand_sent, selectPage_sent _ (by decide : 4 ≤ 4)]
  have hseq : matrixReset s
      = (writeCommand 4 0x36 0x00 (writeCommand 4 0x02 0x66 (writeCommand 4 0x01 0xFF
          (writeCommand 4 0x00 0x09 (writeCommand 4 0x3F 0xAE s).2).2).2).2).2 := rfl
  refine ⟨hseq, ?_⟩
  obtain ⟨t1, ht1, e1⟩ := step 0x3F 0xAE s
  obtain ⟨t2, ht2, e2⟩ := step 0x00 0x09 (writeCommand 4 0x3F 0xAE s).2
  obtain ⟨t3, ht3, e3⟩ := step 0x01 0xFF (writeCommand 4 0x00 0x09 (writeCommand 4 0x3F 0xAE s).2).2
  obtain ⟨t4, ht4, e4⟩ := step 0x02 0x66 (writeCommand 4 0x01 0xFF
    (writeCommand 4 0x00 0x09 (writeCommand 4 0x3F 0xAE s).2).2).2
  obtain ⟨t5, ht5, e5⟩ := step 0x36 0x00 (writeCommand 4 0x02 0x66 (writeCommand 4 0x01 0xFF
    (writeCommand 4 0x00 0x09 (writeCommand 4 0x3F 0xAE s).2).2).2).2
  refine ⟨t1, t2, t3, t4, t5, ?_, ?_⟩
  · intro t ht
    simp only [List.mem_cons, List.mem_singleton, List.not_mem_nil, or_false] at ht
    rcases ht with rfl | rfl | rfl | rfl | rfl <;> assumption
  · rw [hseq, e5, e4, e3, e2, e1]

/-! ## Exhaustiveness of the region branches -/

/-- C20: for all inputs, neither `setPixel` nor `setPixelScale` returns the code 2 of the
final `else`; a coordinate that passes the range check (`x ≤ LEDWidth`, `y ≤ LEDHeight`)
falls in one of the region branches and reaches `writeCommand`. -/
theorem setPixel_branches_exhaustive (x y v : Nat) (s : Machine) :
    setPixelRegister x y ≠ .error 2 ∧ setPixelScaleRegister x y ≠ .error 2 ∧
    (setPixel x y v s).1 ≠ 2 ∧ (setPixelScale x y v s).1 ≠ 2 ∧
    (x > LEDWidth ∨ y > LEDHeight ∨
      ∃ a b, setPixelRegister x y = .ok a ∧ setPixelScaleRegister x y = .ok b) := by
  have key : setPixelRegister x y = .error 1 ∧ (x > LEDWidth ∨ y > LEDHeight)
      ∨ ∃ a, setPixelRegister x y = .ok a := by
    by_cases c1 : x > LEDWidth ∨ y > LEDHeight
    · left
      refine ⟨?_, c1⟩
      unfold setPixelRegister
      rw [if_pos c1]
    · right
      unfold setPixelRegister
      rw [if_neg c1]
      simp only [LEDWidth, LEDHeight] at c1
      split_ifs with c2 c3 c4 c5 c6
      · exact ⟨_, rfl⟩
      · exact ⟨_, rfl⟩
      · exact ⟨_, rfl⟩
      · exact ⟨_, rfl⟩
      · exact ⟨_, rfl⟩
      · omega
  rcases key with ⟨h, hr⟩ | ⟨a, h⟩
  · have hs : setPixelScaleRegister x y = .error 1 := by
      rw [setPixelScaleRegister_eq, h]
      rfl
    refine ⟨by rw [h]; decide, by rw [hs]; decide, ?_, ?_, ?_⟩
    · simp [setPixel, h]
    · simp [setPixelScale, hs]
    · rcases hr with hr | hr
      · exact Or.inl hr
      · exact Or.inr (Or.inl hr)
  · have hs : setPixelScaleRegister x y = .ok (a.1 + 2, a.2) := by
      rw [setPixelScaleRegister_eq, h]
      rfl
    refine ⟨?_, ?_, ?_, ?_, Or.inr (Or.inr ⟨a, _, h, hs⟩)⟩
    · rw [h]
      intro hh
      cases hh
    · rw [hs]
      intro hh
      cases hh
    · rw [setPixel_of_register (show setPixelRegister x y = .ok (a.1, a.2) from h)]
      exact Nat.zero_ne_add_one 1
    · rw [setPixelScale_of_register hs]
      exact Nat.zero_ne_add_one 1

/-! ## The constant fill against the frame writer -/

/-- C21 as stated fails on the second page: `writeAll(7)` streams 171 data bytes there and
`writeMatrix` on the frame whose every entry is 7 streams 161. -/
theorem writeAll_special_case_counterexample :
    (writeAllData1 7).length = 171 ∧
    (writeMatrixData1 (fun _ _ => 7) false).length = 161 ∧
    writeAllData1 7 ≠ writeMatrixData1 (fun _ _ => 7) false ∧
    (writeAll 7 Machine.boot).2.sent
      = [Txn.write [0xFE, 0xC5], Txn.write [0xFD, 0], Txn.write (0 :: writeAllData0 7),
         Txn.write [0xFE, 0xC5], Txn.write [0xFD, 1], Txn.write (0 :: writeAllData1 7)] ∧
    (writeMatrix (fun _ _ => 7) false Machine.boot).2.sent
      = [Txn.write [0xFE, 0xC5], Txn.write [0xFD, 0],
         Txn.write (0 :: writeMatrixData0 (fun _ _ => 7) false),
         Txn.write [0xFE, 0xC5], Txn.write [0xFD, 1],
         Txn.write (0 :: writeMatrixData1 (fun _ _ => 7) false)] := by
  have h1 : (writeAllData1 7).length = 171 := by simp [writeAllData1]
  have h2 : (writeMatrixData1 (fun _ _ => 7) false).length = 161 := by simp [writeMatrixData1]
  refine ⟨h1, h2, ?_, ?_, ?_⟩
  · intro h
    rw [h, h2] at h1
    exact absurd h1 (by decide)
  · rw [writeAll_eq, twoPageWrite_sent (by decide) (by decide) (by decide)]
    simp [Machine.boot, selectTxns]
  · rw [writeMatrix_sent]
    simp [Machine.boot, selectTxns]

/-- C21, amended: for every value `v`, on the first page `writeAll v` streams exactly the
byte sequence of `writeMatrix` with gamma off on the frame whose every entry is `v`; on
the second page it streams that sequence (registers `0x00..0xA0`, 161 bytes) followed by
ten more bytes `v` for the registers `0xA1..0xAA`. -/
theorem writeAll_special_case (v : Nat) (s : Machine) :
    writeAllData0 v = writeMatrixData0 (fun _ _ => v) false ∧
    writeAllData1 v = writeMatrixData1 (fun _ _ => v) false ++ List.replicate 10 v ∧
    (writeAll v s).2.sent
      = s.sent ++ (if s.currentPage = 0 then [] else selectTxns 0)
          ++ [Txn.write (0 :: writeMatrixData0 (fun _ _ => v) false)]
          ++ selectTxns 1
          ++ [Txn.write (0 :: (writeMatrixData1 (fun _ _ => v) false ++ List.replicate 10 v))] ∧
    (writeMatrix (fun _ _ => v) false s).2.sent
      = s.sent ++ (if s.currentPage = 0 then [] else selectTxns 0)
          ++ [Txn.write (0 :: writeMatrixData0 (fun _ _ => v) false)]
          ++ selectTxns 1
          ++ [Txn.write (0 :: writeMatrixData1 (fun _ _ => v) false)] := by
  have h0 : writeAllData0 v = writeMatrixData0 (fun _ _ => v) false := rfl
  have h1 : writeAllData1 v = writeMatrixData1 (fun _ _ => v) false ++ List.replicate 10 v := by
    unfold writeAllData1 writeMatrixData1
    rw [show (0xAA + 1 : Nat) = (0xA0 + 1) + 10 from rfl, List.range_add, List.map_append]
    congr 1
  refine ⟨h0, h1, ?_, writeMatrix_sent _ false s⟩
  rw [writeAll_eq, twoPageWrite_sent (by decide) (by decide) (by decide), h0, h1]

/-! ## Coherence of the page cache -/

theorem getElem?_append_of_some {α : Type} {l : List α} {i : Nat} {x : α}
    (h : l[i]? = some x) (l2 : List α) : (l ++ l2)[i]? = some x := by
  have hi : i < l.length := by
    by_contra hc
    rw [List.getElem?_eq_none (by omega)] at h
    cases h
  rw [List.getElem?_append_left hi, h]

theorem Op.track_step_fst (o : Op) (t : Tracked) : (o.track t).1 = o.run t.1 := by
  cases o <;> rfl

theorem foldl_track_fst (ops : List Op) (t : Tracked) :
    (ops.foldl (fun t o => o.track t) t).1 = ops.foldl (fun s o => o.run s) t.1 := by
  induction ops generalizing t with
  | nil => rfl
  | cons o rest ih => simp only [List.foldl_cons, ih, Op.track_step_fst]

/-- Every function leaves the state that its primitive steps, run in order, leave. -/
theorem Call.run_eq_ops (c : Call) (s : Machine) :
    c.run s = c.ops.foldl (fun s o => o.run s) s := by
  cases c with
  | setPixel x y pwm =>
    simp only [Call.run, Call.ops, Firmware.setPixel]
    cases setPixelRegister x y <;> rfl
  | setPixelScale x y scale =>
    simp only [Call.run, Call.ops, Firmware.setPixelScale]
    cases setPixelScaleRegister x y <;> rfl
  | _ => rfl

/-- The machine part of a tracked call is the state the called function leaves. -/
theorem Call.track_fst (c : Call) (t : Tracked) : (c.track t).1 = c.run t.1 := by
  rw [Call.run_eq_ops, Call.track, foldl_track_fst]

/-- A message closed by `endTransmission`, or a read, keeps the coherence: the log only
grows and neither the cache nor the record changes. -/
theorem Coherent.grow {s s2 : Machine} {g : Option SelectRecord} (h : Coherent (s, g))
    (extra : List Txn) (hsent : s2.sent = s.sent ++ extra)
    (hcur : s2.currentPage = s.currentPage) : Coherent (s2, g) := by
  obtain ⟨hlog, hcache⟩ := h
  refine ⟨?_, ?_⟩
  · intro r hr
    obtain ⟨h1, h2, h3⟩ := hlog r hr
    show 1 ≤ r.index ∧ s2.sent[r.index]? = _ ∧ s2.sent[r.index - 1]? = _
    rw [hsent]
    exact ⟨h1, getElem?_append_of_some h2 _, getElem?_append_of_some h3 _⟩
  · show s2.currentPage = 0xFF ∨ (s2.currentPage ≤ 4 ∧ _)
    rw [hcur]
    exact hcache

theorem Op.track_step_coherent (o : Op) (t : Tracked) (h : Coherent t) : Coherent (o.track t) := by
  obtain ⟨s, g⟩ := t
  cases o with
  | transmit bytes => exact h.grow [Txn.write bytes] rfl rfl
  | request => exact h.grow [Txn.request 1] rfl rfl
  | select page =>
    by_cases hp : page > 4
    · have e : selectPage page s = (5, s) := by simp [selectPage, hp]
      simp only [Op.track, e, hp, true_or, if_true]
      exact h
    · have hp4 : page ≤ 4 := by omega
      by_cases hc : s.currentPage = page
      · simp only [Op.track, selectPage_hit hp4 hc, hc, or_true, if_true]
        exact h
      · simp only [Op.track, selectPage_miss hp4 hc, if_neg (not_or.mpr ⟨hp, hc⟩)]
        refine ⟨?_, ?_⟩
        · intro r hr
          cases hr
          refine ⟨Nat.le_add_left 1 _, ?_, ?_⟩
          · show (s.sent ++ selectTxns page)[s.sent.length + 1]? = _
            rw [List.getElem?_append_right (by omega)]
            simp [selectTxns]
          · show (s.sent ++ selectTxns page)[s.sent.length + 1 - 1]? = _
            rw [List.getElem?_append_right (by omega)]
            simp [selectTxns]
        · show (if max (s.acks.tail.headD 0 % 256) (s.acks.headD 0 % 256) = 0 then page
              else 0xFF) = 0xFF ∨ _
          by_cases hm : max (s.acks.tail.headD 0 % 256) (s.acks.headD 0 % 256) = 0
          · right
            simp only [if_pos hm]
            refine ⟨hp4, _, rfl, rfl, ?_, ?_⟩
            · show s.acks.headD 0 % 256 = 0
              omega
            · show s.acks.tail.headD 0 % 256 = 0
              omega
          · left
            rw [if_neg hm]

theorem Call.track_coherent (c : Call) (t : Tracked) (h : Coherent t) :
    Coherent (c.track t) := by
  unfold Call.track
  generalize c.ops = ops
  induction ops generalizing t with
  | nil => exact h
  | cons o rest ih => exact ih _ (o.track_step_coherent t h)

theorem Reachable.coherent {t : Tracked} (h : Reachable t) : Coherent t := by
  induction h with
  | boot acks rx => exact ⟨fun r hr => (by cases hr), Or.inl rfl⟩
  | call c _ ih => exact c.track_coherent _ ih
  | bus acks rx _ ih => exact Coherent.grow (s := _) ih [] (by simp) rfl

/-- C22: in every state reachable from startup by calls of the functions of the file, under
any bus statuses, the cached page is the sentinel `0xFF`, or a page `p ≤ 4` for which the
most recent page-select message issued by `selectPage` (the record) wrote `p` to register
`0xFD`, right after an unlock message, both having completed with status 0.  The tracked
run of a call leaves the machine that the called function leaves, and stays reachable. -/
theorem cache_coherence (t : Tracked) (h : Reachable t) :
    (t.1.currentPage = 0xFF ∨
      (t.1.currentPage ≤ 4 ∧
        ∃ r, t.2 = some r ∧ r.page = t.1.currentPage ∧ r.unlockErr = 0 ∧ r.error = 0 ∧
          1 ≤ r.index ∧
          t.1.sent[r.index]? = some (Txn.write [0xFD, t.1.currentPage]) ∧
          t.1.sent[r.index - 1]? = some (Txn.write [0xFE, 0xC5]))) ∧
    (∀ c : Call, (c.track t).1 = c.run t.1 ∧ Reachable (c.track t)) := by
  obtain ⟨hlog, hcache⟩ := h.coherent
  refine ⟨?_, fun c => ⟨c.track_fst t, Reachable.call c h⟩⟩
  rcases hcache with h255 | ⟨h4, r, hr, hpage, hu, he⟩
  · exact Or.inl h255
  · obtain ⟨h1, h2, h3⟩ := hlog r hr
    rw [hpage] at h2
    exact Or.inr ⟨h4, r, hr, hpage, hu, he, h1, h2, h3⟩

/-- C22 at two reachable states: after `setPixel(3, 0, 128)` from startup on a bus that
acknowledges everything the cache holds page 0 and the record points at the page-select
message at position 1 of the log; after the same call on a bus that reports status 2 for
the unlock the cache holds `0xFF`. -/
theorem cache_coherence_witness :
    Reachable ((Call.setPixel 3 0 128).track (⟨0xFF, [], [], []⟩, none)) ∧
    (Call.setPixel 3 0 128).track (⟨0xFF, [], [], []⟩, none)
      = (⟨0, [Txn.write [0xFE, 0xC5], Txn.write [0xFD, 0], Txn.write [150, 128]], [], []⟩,
         some ⟨1, 0, 0, 0⟩) ∧
    ((Call.setPixel 3 0 128).track (⟨0xFF, [], [2], []⟩, none)).1.currentPage = 0xFF ∧
    (((Call.setPixel 3 0 128).track (⟨0xFF, [], [], []⟩, none)).1.currentPage = 0xFF ∨
      (((Call.setPixel 3 0 128).track (⟨0xFF, [], [], []⟩, none)).1.currentPage ≤ 4 ∧
        ∃ r, ((Call.setPixel 3 0 128).track (⟨0xFF, [], [], []⟩, none)).2 = some r ∧
          r.page = ((Call.setPixel 3 0 128).track (⟨0xFF, [], [], []⟩, none)).1.currentPage ∧
          r.unlockErr = 0 ∧ r.error = 0 ∧ 1 ≤ r.index ∧
          ((Call.setPixel 3 0 128).track (⟨0xFF, [], [], []⟩, none)).1.sent[r.index]?
            = some (Txn.write [0xFD,
                ((Call.setPixel 3 0 128).track (⟨0xFF, [], [], []⟩, none)).1.currentPage]) ∧
          ((Call.setPixel 3 0 128).track (⟨0xFF, [], [], []⟩, none)).1.sent[r.index - 1]?
            = some (Txn.write [0xFE, 0xC5]))) :=
  ⟨Reachable.call _ (Reachable.boot [] []), by decide, by decide,
    (cache_coherence _ (Reachable.call (Call.setPixel 3 0 128) (Reachable.boot [] []))).1⟩

end Firmware
